import Mathlib

/-!
Verification development for the `rib` EPUB reader.

This file gives a shallow embedding, in Lean, of the parts of the Rust
source that the specification claims talk about:

* the style model (`src/style.rs`),
* the spine / table-of-contents reconciler (`src/epub/index.rs`),
* raw extraction and its zip-slip check (`src/epub.rs`, modelling the
  `std::path` join / starts_with semantics the Rust code relies on),
* rendition-directory derivation from style fingerprints (`src/epub.rs`),
* navigation wrapper controls (`src/epub/navigation.rs`),
* the hyperlink target rewriting of the content transformer
  (`src/epub/xhtml.rs`),
* style registration with its filesystem effects (`src/library.rs`),
* book opening and library truncation / eviction (`src/library.rs`).

Machine integers (`u64`, `usize`) are modelled as `Nat`: none of the
embedded code paths can overflow them on realistic inputs, and no claim
depends on wraparound.  `SystemTime` values are modelled as `Nat`
timestamps; they are only ever compared for equality and order.
Filesystem and browser I/O is modelled explicitly where a claim depends
on it (an oracle decides the success of each operation and the performed
operations are logged) and as always succeeding where no claim does.
-/

namespace Rib

/-! ## Style model (src/style.rs) -/

/-- One styleable property value together with its override flag
(`StylesheetValue` in src/style.rs). -/
structure StylesheetValue where
  value : String
  override_book : Bool
deriving DecidableEq

/-- Optional styleable properties of a stylesheet (`Stylesheet` in
src/style.rs). -/
structure Stylesheet where
  text_color : Option StylesheetValue
  link_color : Option StylesheetValue
  background_color : Option StylesheetValue
  margin_size : Option StylesheetValue
  max_image_width : Option StylesheetValue
deriving DecidableEq

/-- A rendition style (`Style` in src/style.rs). -/
structure Style where
  include_index : Bool
  inject_navigation : Bool
  stylesheet : Option Stylesheet
deriving DecidableEq

/-- Style of the raw rendition (`Style::raw`). -/
def Style.raw : Style :=
  { include_index := false, inject_navigation := false, stylesheet := none }

/-- Whether a style can reuse the raw contents directory unmodified
(`Style::uses_raw_contents_dir`). -/
def Style.uses_raw_contents_dir (s : Style) : Bool :=
  !(s.inject_navigation || s.stylesheet.isSome)

/-! ## Book data model (src/epub.rs) -/

/-- Media type tag of a spine item (`EpubSpineItemFormat`). -/
inductive EpubSpineItemFormat where
  | svg
  | xhtml
deriving DecidableEq

/-- One spine entry (`EpubSpineItem`). -/
structure EpubSpineItem where
  path : String
  format : EpubSpineItemFormat
  linear : Bool
deriving DecidableEq

/-- One table-of-contents node (`EpubTocItem`): label, target path with
and without its fragment suffix, children, nesting depth. -/
inductive EpubTocItem where
  | mk (label : String) (path_without_fragment : String)
      (path_with_fragment : String) (children : List EpubTocItem)
      (nesting_level : Nat)

/-- Accessor for the fragment-stripped target path of a TOC node. -/
def EpubTocItem.path_without_fragment : EpubTocItem → String
  | .mk _ p _ _ _ => p

/-- Accessor for the children of a TOC node. -/
def EpubTocItem.children : EpubTocItem → List EpubTocItem
  | .mk _ _ _ cs _ => cs

mutual

/-- Preorder flattening of one TOC node (`EpubTocItem::flattened`):
the node itself followed by the flattenings of its children in order. -/
def EpubTocItem.flattened : EpubTocItem → List EpubTocItem
  | .mk l pwf pf cs n => .mk l pwf pf cs n :: EpubTocItem.flattened_list cs

/-- Preorder flattening of a forest of TOC nodes, in order
(`toc.iter().flat_map(|toc_item| toc_item.flattened())`). -/
def EpubTocItem.flattened_list : List EpubTocItem → List EpubTocItem
  | [] => []
  | t :: ts => EpubTocItem.flattened t ++ EpubTocItem.flattened_list ts

end

/-- One materialized rendition (`EpubRenditionInfo`).  Paths are the
UTF-8 path strings the Rust code stores. -/
structure EpubRenditionInfo where
  style : Style
  dir_path_from_library_root : String
  default_file_path_from_library_root : String
  bytes : Nat

/-- Library record of one book (`EpubInfo`).  The fields not used by any
claim (creators, cover path, added time) are omitted. -/
structure EpubInfo where
  id : String
  title : String
  first_linear_spine_item_path : String
  last_linear_spine_item_path : String
  path_from_library_root : String
  last_opened_time : Nat
  last_opened_styles : List Style
  spine_items : List EpubSpineItem
  nonspine_resource_paths : List String
  table_of_contents : List EpubTocItem
  raw_rendition : EpubRenditionInfo
  nonraw_renditions : List EpubRenditionInfo

/-- Lookup of the rendition built for a style
(`EpubInfo::find_rendition`). -/
def EpubInfo.find_rendition (info : EpubInfo) (style : Style) :
    Option EpubRenditionInfo :=
  if style = Style.raw then some info.raw_rendition
  else info.nonraw_renditions.find? (fun r => style == r.style)

/-- Total rendition bytes of one book (`EpubInfo::size_in_bytes`). -/
def EpubInfo.size_in_bytes (info : EpubInfo) : Nat :=
  info.raw_rendition.bytes +
    info.nonraw_renditions.foldl (fun bytes r => bytes + r.bytes) 0

/-! ## Spine/TOC reconciler (src/epub/index.rs) -/

/-- Result of the reconciliation (`EpubIndex`). -/
inductive EpubIndex where
  | tocLinearRelativeToSpine
      (mapping : List (EpubSpineItem × List EpubTocItem))
  | tocNonlinearRelativeToSpine
      (spine : List EpubSpineItem) (toc : List EpubTocItem)

/-- Loop of `EpubIndex::flattened_toc_is_linear_relative_to_spine`: walk
the flattened TOC tracking the spine index of the most recently matched
entry (seeded with 0); a target absent from the spine is an error, an
index below the running value ends the walk with `false`. -/
def flattened_toc_is_linear_loop (spine : List EpubSpineItem) :
    List EpubTocItem → Nat → Except String Bool
  | [], _ => .ok true
  | toc_item :: rest, most_recent =>
    match spine.findIdx?
        (fun s => s.path == toc_item.path_without_fragment) with
    | none =>
      .error ("Ill-formed EPUB: TOC contains path " ++
        toc_item.path_without_fragment ++ ", which does not appear in spine.")
    | some idx =>
      if idx < most_recent then .ok false
      else flattened_toc_is_linear_loop spine rest idx

/-- Entry point of the linearity check
(`EpubIndex::flattened_toc_is_linear_relative_to_spine`). -/
def flattened_toc_is_linear_relative_to_spine (spine : List EpubSpineItem)
    (flattened_toc : List EpubTocItem) : Except String Bool :=
  flattened_toc_is_linear_loop spine flattened_toc 0

/-- Mapping from each spine item to the flattened TOC entries targeting
it (`EpubIndex::map_spine_to_flattened_toc`). -/
def map_spine_to_flattened_toc (spine : List EpubSpineItem)
    (flattened_toc : List EpubTocItem) :
    List (EpubSpineItem × List EpubTocItem) :=
  spine.map (fun s =>
    (s, flattened_toc.filter (fun t => s.path == t.path_without_fragment)))

/-- Classification of a spine and TOC into one of the two index layouts
(`EpubIndex::from_spine_and_toc`). -/
def EpubIndex.from_spine_and_toc (spine : List EpubSpineItem)
    (toc : List EpubTocItem) : Except String EpubIndex := do
  let flattened_toc := EpubTocItem.flattened_list toc
  match ← flattened_toc_is_linear_relative_to_spine spine flattened_toc with
  | true =>
    return .tocLinearRelativeToSpine
      (map_spine_to_flattened_toc spine flattened_toc)
  | false => return .tocNonlinearRelativeToSpine spine flattened_toc

/-- Spine index of a flattened TOC entry, when its target is present
(used only to state theorems about the classifier). -/
def toc_spine_index (spine : List EpubSpineItem) (t : EpubTocItem) :
    Option Nat :=
  spine.findIdx? (fun s => s.path == t.path_without_fragment)

/-- Running maximum of the first `i` entries of a list of spine indices,
seeded with `m`. -/
def running_max_from (m : Nat) (idxs : List Nat) (i : Nat) : Nat :=
  (idxs.take i).foldl max m

/-- Running maximum of the first `i` entries of a list of spine indices,
starting from 0 — the quantity the specification describes the
reconciler as tracking. -/
def running_max_before (idxs : List Nat) (i : Nat) : Nat :=
  running_max_from 0 idxs i

/-- The walk the specification describes, as a predicate on the spine
indices of the flattened TOC entries with running value `m`: the walk
detects nonlinearity when some entry falls strictly below the running
value, which is otherwise replaced by the entry index. -/
def spec_nonlinear_walk (m : Nat) : List Nat → Prop
  | [] => False
  | x :: xs => x < m ∨ (m ≤ x ∧ spec_nonlinear_walk x xs)

/-- Existence of a running-maximum regression in a list of spine
indices: some entry is strictly below the running maximum of the
entries before it. -/
def has_running_max_regression (idxs : List Nat) : Prop :=
  ∃ i a, idxs.get? i = some a ∧ a < running_max_before idxs i

/-! ## System paths and raw extraction (src/epub.rs, `extract_epub_to_raw_dir`)

The Rust code manipulates `camino::Utf8PathBuf` values, which wrap
`std::path::Path`.  The operations it relies on are `join` (which does
not normalize `..` components, and replaces the base entirely when the
joined path is absolute) and `starts_with` (a whole-component prefix
test on the unnormalized component list).  Paths are modelled as their
component lists; `.` components are normalized away by `components()`
and so never appear. -/

/-- One path component (`std::path::Component`, without the
Windows-specific prefix variant). -/
inductive PathComponent where
  | rootDir
  | parentDir
  | normal (s : String)
deriving DecidableEq

/-- A system path as its list of components. -/
structure SysPath where
  comps : List PathComponent
deriving DecidableEq

/-- Whether a path is absolute (starts with the root component). -/
def SysPath.is_absolute (p : SysPath) : Bool :=
  p.comps.head? == some PathComponent.rootDir

/-- Path join (`Path::join`): an absolute right-hand side replaces the
base; otherwise components are appended without any normalization. -/
def SysPath.join (base p : SysPath) : SysPath :=
  if p.is_absolute then p else ⟨base.comps ++ p.comps⟩

/-- Component-wise prefix test (`Path::starts_with`).  No normalization
of `..` components is performed. -/
def SysPath.starts_with (self base : SysPath) : Bool :=
  base.comps.isPrefixOf self.comps

/-- Helper for `SysPath.resolved`: interpret components left to right
against a stack of directory names, `none` when a `..` would climb above
the root. -/
def resolve_comps : List PathComponent → List String → Option (List String)
  | [], acc => some acc.reverse
  | PathComponent.rootDir :: rest, acc =>
    if acc.isEmpty then resolve_comps rest acc else none
  | PathComponent.normal s :: rest, acc => resolve_comps rest (s :: acc)
  | PathComponent.parentDir :: rest, acc =>
    match acc with
    | [] => none
    | _ :: acc2 => resolve_comps rest acc2

/-- The filesystem location an absolute path actually denotes once the
operating system resolves `..` components: the list of directory names
under the root, or `none` when the path climbs above the root. -/
def SysPath.resolved (p : SysPath) : Option (List String) :=
  resolve_comps p.comps []

/-- Whether resolved location `t` lies inside resolved location `b`. -/
def resolved_under (t b : List String) : Bool :=
  b.isPrefixOf t

/-- Raw extraction (`EpubInfo::extract_epub_to_raw_dir`): for each
resource, join its path onto the raw directory; if the joined path
passes the `starts_with` containment check the resource file is written
there (directory creation and resource reads elided), otherwise
extraction fails with the zip-slip error.  Returns the list of file
paths written, in order. -/
def extract_epub_to_raw_dir (raw_dir_path : SysPath) :
    List SysPath → Except String (List SysPath)
  | [] => .ok []
  | resource :: rest =>
    let resource_path_absolute := raw_dir_path.join resource
    if resource_path_absolute.starts_with raw_dir_path then do
      let written ← extract_epub_to_raw_dir raw_dir_path rest
      return resource_path_absolute :: written
    else
      .error "Book contains a resource which is attempting a zip slip."

/-! ## Rendition directory derivation (src/epub.rs,
`get_new_rendition_dir_path_from_style`) -/

/-- Join of two UTF-8 paths as performed by `Utf8PathBuf::join` on the
relative single-component names used for rendition directories. -/
def path_join (a b : String) : String :=
  a ++ "/" ++ b

/-- Zero-padding of a numeral to a fixed width
(`format` with a zero-fill width specifier). -/
def pad_left_zeros (width : Nat) (s : String) : String :=
  String.mk (List.replicate (width - s.length) '0') ++ s

/-- Width used for the zero-padded fingerprint: the number of decimal
digits of `u64::MAX` (`PADDING_AMOUNT` in src/epub.rs). -/
def padding_amount : Nat :=
  (Nat.repr (2 ^ 64 - 1)).length

/-- The zero-padded decimal rendering of a style fingerprint
(`padded_style_hash`).  The hash function itself (`DefaultHasher` over
the style fields) is kept abstract as a parameter `style_hash`; every
theorem about this code quantifies over it. -/
def padded_style_hash (style_hash : Style → Nat) (style : Style) : String :=
  pad_left_zeros padding_amount (Nat.repr (style_hash style))

/-- The n-th candidate directory path tried for a style: the padded
fingerprint joined under the book directory, with `_n` appended from the
second candidate on (the Rust loop starts its numeric extension at 1 and
increments it before first use, so suffixes start at `_2`). -/
def rendition_candidate_path (style_hash : Style → Nat) (info : EpubInfo)
    (style : Style) (n : Nat) : String :=
  if n = 1 then
    path_join info.path_from_library_root (padded_style_hash style_hash style)
  else
    path_join info.path_from_library_root
      (padded_style_hash style_hash style ++ "_" ++ Nat.repr n)

/-- Whether a candidate path is unusable for a style: some existing
rendition already uses that exact directory path for a different style
(the condition of the Rust `while` loop). -/
def rendition_path_blocked (info : EpubInfo) (style : Style) (p : String) :
    Bool :=
  info.nonraw_renditions.any
    (fun r => r.dir_path_from_library_root == p && !(style == r.style))

/-- Directory-path derivation for a new rendition
(`EpubInfo::get_new_rendition_dir_path_from_style`): try candidate names
in order until one is not blocked.  The Rust loop increments the numeric
suffix unboundedly; since each existing rendition can block at most one
candidate name, the first `nonraw_renditions.length + 1` candidates
always contain the one the loop stops at, and the embedding searches
exactly those (the fallback arm is unreachable because distinct
candidates are distinct strings). -/
def EpubInfo.get_new_rendition_dir_path_from_style (info : EpubInfo)
    (style_hash : Style → Nat) (style : Style) : String :=
  match ((List.range (info.nonraw_renditions.length + 1)).map
      (fun k => k + 1)).find?
      (fun n => !(rendition_path_blocked info style
        (rendition_candidate_path style_hash info style n))) with
  | some n => rendition_candidate_path style_hash info style n
  | none =>
    rendition_candidate_path style_hash info style
      (info.nonraw_renditions.length + 2)

/-! ## Sorting

Rust sorts eviction candidates with `sort_unstable_by`, whose result on
tying keys is unspecified.  The embedding uses a deterministic insertion
sort producing a comparator-sorted, stable permutation — one of the
outcomes `sort_unstable_by` is allowed to produce. -/

/-- Insertion of an element into a sorted list. -/
def insertSorted (le : α → α → Bool) (x : α) : List α → List α
  | [] => [x]
  | y :: ys => if le x y then x :: y :: ys else y :: insertSorted le x ys

/-- Insertion sort by a Boolean comparator. -/
def insertionSortBy (le : α → α → Bool) : List α → List α
  | [] => []
  | x :: xs => insertSorted le x (insertionSortBy le xs)

/-! ## Library store (src/library.rs) -/

/-- The library: root path and the map from book id to its record.  The
`HashMap` is modelled as an association list with (as in the `HashMap`)
pairwise-distinct keys in every state the code constructs; its iteration
order, unspecified in Rust, is the list order. -/
structure Library where
  library_path : String
  books : List (String × EpubInfo)

/-- Lookup of a book record by id (`self.books.get(id)`). -/
def Library.get_book (lib : Library) (id : String) : Option EpubInfo :=
  (lib.books.find? (fun b => b.1 == id)).map (fun b => b.2)

/-- Replacement of the record stored under an id, modelling mutation
through `self.books.get_mut(id)`: the first entry with the key is
replaced, everything else untouched. -/
def replace_first_book : List (String × EpubInfo) → String → EpubInfo →
    List (String × EpubInfo)
  | [], _, _ => []
  | (k, v) :: rest, id, info =>
    if k == id then (k, info) :: rest
    else (k, v) :: replace_first_book rest id info

/-- Total rendition bytes across all books (`Library::size_in_bytes`). -/
def Library.size_in_bytes (lib : Library) : Nat :=
  lib.books.foldl (fun size_sum b => size_sum + b.2.size_in_bytes) 0

/-- Oversize test (`Library::is_oversized`): strictly more books than
`max_books`, or strictly more total bytes than `max_bytes`, each only
when the limit is set. -/
def Library.is_oversized (lib : Library) (max_books : Option Nat)
    (max_bytes : Option Nat) : Bool :=
  (match max_books with
    | some m => decide (lib.books.length > m)
    | none => false) ||
  (match max_bytes with
    | some m => decide (lib.size_in_bytes > m)
    | none => false)

/-- Removal of a book record (`Library::remove_book`).  The on-disk
subtree deletion has no effect on library state; for ids drawn from the
map itself the lookup cannot fail, and deletion failures (which would
abort a Rust truncation midway) are not modelled. -/
def Library.remove_book (lib : Library) (id : String) : Library :=
  { lib with books := lib.books.filter (fun b => !(b.1 == id)) }

/-- The eviction comparator used by `Library::truncate`: ascending
last-opened time, ties broken by descending byte size. -/
def eviction_le (a b : String × EpubInfo) : Bool :=
  decide (a.2.last_opened_time < b.2.last_opened_time) ||
    (a.2.last_opened_time == b.2.last_opened_time &&
      decide (b.2.size_in_bytes ≤ a.2.size_in_bytes))

/-- The removal-candidate ordering of `Library::truncate`: all books not
in the excluded set, sorted by `eviction_le`, stalest first.  (The Rust
code collects the sorted ids reversed into a `Vec` and pops from its
end, which consumes them in exactly this order.) -/
def Library.truncation_candidates (lib : Library)
    (ids_to_exclude : List String) : List (String × EpubInfo) :=
  insertionSortBy eviction_le
    (lib.books.filter (fun b => !(ids_to_exclude.contains b.1)))

/-- The removal loop of `Library::truncate`: while the library is still
oversized and candidates remain, remove the next candidate. -/
def truncate_loop (max_books max_bytes : Option Nat) :
    List String → Library → Library
  | [], lib => lib
  | id :: rest, lib =>
    if lib.is_oversized max_books max_bytes then
      truncate_loop max_books max_bytes rest (lib.remove_book id)
    else lib

/-- Library truncation (`Library::truncate`).  The index-file write at
the end is warning-only and does not affect library state. -/
def Library.truncate (lib : Library) (max_books max_bytes : Option Nat)
    (ids_to_exclude : List String) : Library :=
  if lib.is_oversized max_books max_bytes then
    truncate_loop max_books max_bytes
      ((lib.truncation_candidates ids_to_exclude).map (fun b => b.1)) lib
  else lib

/-- Book opening (`Library::open_book`): fails (`none`) when the id is
unknown or the style has no registered rendition; otherwise records the
access: a request at the already-recorded last-opened time appends the
style to `last_opened_styles`, any other request time overwrites the
time and resets the list to that single style.  Opening the rendition in
the browser is external I/O modelled as succeeding; the index write that
follows is warning-only. -/
def Library.open_book (lib : Library) (id : String) (request_time : Nat)
    (style : Style) : Option Library :=
  match lib.get_book id with
  | none => none
  | some info =>
    match info.find_rendition style with
    | none => none
    | some _ =>
      let info2 :=
        if info.last_opened_time == request_time then
          { info with last_opened_styles := info.last_opened_styles ++ [style] }
        else
          { info with last_opened_time := request_time, last_opened_styles := [style] }
      some { lib with books := replace_first_book lib.books id info2 }

/-! ## Navigation wrapper controls (src/epub/navigation.rs) -/

/-- A Previous or Next control in a navigation wrapper: either inert
(the code emits an anchor without `href` for Previous and a disabled
button for Next) or a link.  `linkTo` carries the spine item path the
control targets; the code joins it under the contents directory and
relativizes it against the wrapper location, pure path arithmetic that
no claim depends on. -/
inductive NavControl where
  | disabled
  | linkTo (path : String)
deriving DecidableEq

/-- Error message shared by the two directional scans. -/
def no_linear_scan_error (direction : String) : String :=
  "Internal error: called get_" ++ direction ++
    "_linear_spine_item_path when no " ++ direction ++
    " linear spine item path could be gotten."

/-- Backward scan of `get_previous_linear_spine_item_path`, starting at
the given index and decrementing.  Decrementing below index 0 is a
`usize` underflow in Rust (a panic in debug builds, a failed lookup and
the internal error in release builds); both are modelled as the error. -/
def prev_linear_scan (info : EpubInfo) : Nat → Except String String
  | 0 =>
    match info.spine_items.get? 0 with
    | some item =>
      if item.linear then .ok item.path
      else .error (no_linear_scan_error "previous")
    | none => .error (no_linear_scan_error "previous")
  | i + 1 =>
    match info.spine_items.get? (i + 1) with
    | some item =>
      if item.linear then .ok item.path else prev_linear_scan info i
    | none => .error (no_linear_scan_error "previous")

/-- Path of the nearest linear spine item strictly before the given
index (`get_previous_linear_spine_item_path`). -/
def get_previous_linear_spine_item_path (info : EpubInfo)
    (current_spine_index : Nat) : Except String String :=
  prev_linear_scan info (current_spine_index - 1)

/-- Forward scan of `get_next_linear_spine_item_path`, starting at the
given index and incrementing until the spine ends. -/
def next_linear_scan (info : EpubInfo) (i : Nat) : Except String String :=
  match h : info.spine_items.get? i with
  | some item =>
    if item.linear then .ok item.path else next_linear_scan info (i + 1)
  | none => .error (no_linear_scan_error "next")
termination_by info.spine_items.length - i
decreasing_by
  have : i < info.spine_items.length := (List.get?_eq_some.mp h).1
  omega

/-- Path of the nearest linear spine item strictly after the given index
(`get_next_linear_spine_item_path`). -/
def get_next_linear_spine_item_path (info : EpubInfo)
    (current_spine_index : Nat) : Except String String :=
  next_linear_scan info (current_spine_index + 1)

/-- The Previous/Next control decisions of `create_navigation_wrapper`
for the wrapper of spine index `spine_index`: resolve the spine indices
of the recorded first and last linear item paths (error when absent),
disable Previous at or before the first, disable Next at or after the
last, and otherwise link to the nearest linear neighbour found by the
directional scans.  The surrounding XHTML emission, the optional Index
control and the stylesheet link carry no claim-relevant behaviour. -/
def create_navigation_wrapper_controls (info : EpubInfo)
    (spine_index : Nat) : Except String (NavControl × NavControl) := do
  let first_linear_section_index ←
    match info.spine_items.findIdx?
        (fun item => item.path == info.first_linear_spine_item_path) with
    | some i => Except.ok i
    | none => Except.error "Ill-formed EPUB: no linear spine items."
  let last_linear_section_index ←
    match info.spine_items.findIdx?
        (fun item => item.path == info.last_linear_spine_item_path) with
    | some i => Except.ok i
    | none => Except.error "Ill-formed EPUB: no linear spine items."
  let previous ←
    if spine_index ≤ first_linear_section_index then
      pure NavControl.disabled
    else do
      let p ← get_previous_linear_spine_item_path info spine_index
      pure (NavControl.linkTo p)
  let next ←
    if spine_index ≥ last_linear_section_index then
      pure NavControl.disabled
    else do
      let p ← get_next_linear_spine_item_path info spine_index
      pure (NavControl.linkTo p)
  return (previous, next)

/-! ## Hyperlink rewriting in the content transformer
(src/epub/xhtml.rs, `adjust_xhtml_source`, anchor-element arm) -/

/-- One XML attribute. -/
structure XmlAttribute where
  name : String
  value : String
deriving DecidableEq

/-- Outcome of `Url::parse` on an `href` string: a successful parse of a
standalone absolute URL, the `RelativeUrlWithoutBase` error identifying
a relative reference, or any other parse error. -/
inductive UrlParseOutcome where
  | absolute
  | relativeNoBase
  | failure (msg : String)
deriving DecidableEq

/-- Replacement of the value of the first `href` attribute, modelling
mutation through `attributes.iter_mut().find(..)`. -/
def replace_first_href_value : List XmlAttribute → String → List XmlAttribute
  | [], _ => []
  | a :: rest, v =>
    if a.name == "href" then { a with value := v } :: rest
    else a :: replace_first_href_value rest v

/-- Setting the computed `target`: overwrite the value of the first
existing `target` attribute (the Rust code finds its position and
assigns its value, keeping its name), or append a new one at the end
when none exists. -/
def set_target_attribute : List XmlAttribute → String → List XmlAttribute
  | [], t => [⟨"target", t⟩]
  | a :: rest, t =>
    if a.name == "target" then { a with value := t } :: rest
    else a :: set_target_attribute rest t

/-- The attribute rewriting `adjust_xhtml_source` performs on each
anchor (`<a>`) start element, in source order: classify the first
`href` via `Url::parse` (kept abstract as `parse_url`) to choose the
target value — `_blank` for an absolute URL, `_parent`/`_self` for a
relative one depending on navigation injection, a propagated error
otherwise; then, when injecting navigation, possibly rewrite the href to
the target spine item navigation page (`rewrite_to_navigation` keeps the
URL join, spine lookup and relativization abstract: `none` means the
href targets no spine item and is left unchanged, errors propagate);
finally store the chosen target value. -/
def adjust_anchor_attributes (parse_url : String → UrlParseOutcome)
    (rewrite_to_navigation : String → Except String (Option String))
    (inject_navigation : Bool) (attrs : List XmlAttribute) :
    Except String (List XmlAttribute) := do
  let relative_path_target := if inject_navigation then "_parent" else "_self"
  let target ←
    match attrs.find? (fun a => a.name == "href") with
    | some href_attribute =>
      match parse_url href_attribute.value with
      | .absolute => pure (some "_blank")
      | .relativeNoBase => pure (some relative_path_target)
      | .failure msg => Except.error msg
    | none => pure (none : Option String)
  let attrs2 ←
    match attrs.find? (fun a => a.name == "href"), inject_navigation with
    | some href_attribute, true => do
      match ← rewrite_to_navigation href_attribute.value with
      | some new_value => pure (replace_first_href_value attrs new_value)
      | none => pure attrs
    | _, _ => pure attrs
  match target with
  | some t => return set_target_attribute attrs2 t
  | none => return attrs2

/-! ## Style registration (src/library.rs, `register_book_styles`)

Filesystem effects are explicit: an oracle (`FsEnv.ok`) decides whether
each operation succeeds, successful operations are logged in order, and
a failed operation produces the propagated error of the corresponding
Rust `?`.  File contents are not modelled — no claim depends on them —
but every operation the Rust code performs, in its order, is. -/

/-- One filesystem operation performed during registration. -/
inductive FsOp where
  | createDir (path : String)
  | writeFile (path : String)
  | readFile (path : String)
  | createLink (source destination : String)
  | readDirSize (path : String)
  | writeLibraryIndex
deriving DecidableEq

/-- The filesystem environment: which operations succeed, and the byte
size `get_dir_size` reports for a directory. -/
structure FsEnv where
  ok : FsOp → Bool
  dir_size : String → Nat

/-- Attempt one fallible filesystem operation: log it on success,
propagate the error message on failure. -/
def attempt_op (env : FsEnv) (op : FsOp) (msg : String) :
    Except String (List FsOp) :=
  if env.ok op then .ok [op] else .error msg

/-- Parent directory of a joined path, as a string (`Utf8Path::parent`
on the paths built here, which always have a parent). -/
def drop_last_component (p : String) : String :=
  String.intercalate "/" ((p.splitOn "/").dropLast)

/-- Whether one of the five styleable properties is present with the
given override flag. -/
def stylesheet_value_matches (v : Option StylesheetValue)
    (override_book : Bool) : Bool :=
  match v with
  | some sv => sv.override_book == override_book
  | none => false

/-- Whether `xhtml::generate_stylesheets` produces a stylesheet for the
given override flag: `CssFile::to_string` returns a sheet exactly when
some block is nonempty, i.e. when some property with that flag exists.
(The Rust generators also consult a `max_image_height` accessor that the
`Style` in src/style.rs does not define — cross-file version skew in the
sources; the model uses the fields `Style` has.) -/
def has_stylesheet_output (style : Style) (override_book : Bool) : Bool :=
  match style.stylesheet with
  | none => false
  | some ss =>
    stylesheet_value_matches ss.text_color override_book ||
    stylesheet_value_matches ss.background_color override_book ||
    stylesheet_value_matches ss.margin_size override_book ||
    stylesheet_value_matches ss.link_color override_book ||
    stylesheet_value_matches ss.max_image_width override_book

/-- Internal-error checks of `EpubIndex::to_xhtml`: the recorded first
and last linear spine item paths must occur in the spine. -/
def index_to_xhtml_checks (info : EpubInfo) : Except String Unit :=
  if info.spine_items.any
      (fun item => item.path == info.first_linear_spine_item_path) then
    if info.spine_items.any
        (fun item => item.path == info.last_linear_spine_item_path) then
      .ok ()
    else
      .error "Internal error: last linear spine item path not found as path of any spine items."
  else
    .error "Internal error: first linear spine item path not found as path of any spine items."

/-- Index-page generation (`Library::write_style_index`): build the
index (which reconciles spine and TOC, and looks up the start and end
spine items), then write the index page and its stylesheet. -/
def write_style_index (env : FsEnv) (info : EpubInfo)
    (library_path index_path_from_library_root rendition_dir_path : String) :
    Except String (List FsOp) := do
  let _ ← EpubIndex.from_spine_and_toc info.spine_items info.table_of_contents
  let _ ← index_to_xhtml_checks info
  let ops1 ← attempt_op env
    (.writeFile (path_join library_path index_path_from_library_root))
    "Failed to write rendition index."
  let ops2 ← attempt_op env
    (.writeFile (path_join rendition_dir_path "index_styles.css"))
    "Failed to write rendition index stylesheet."
  return ops1 ++ ops2

/-- Stylesheet generation for rendition contents
(`Library::write_rendition_contents_stylesheets`): write the
no-override and override sheets when they exist. -/
def write_rendition_contents_stylesheets (env : FsEnv) (style : Style)
    (rendition_dir_path : String) : Except String (List FsOp) := do
  let ops1 ←
    if has_stylesheet_output style false then
      attempt_op env
        (.writeFile (path_join rendition_dir_path
          "xhtml_styles_without_override.css"))
        "Failed to write rendition no-override stylesheet."
    else pure []
  let ops2 ←
    if has_stylesheet_output style true then
      attempt_op env
        (.writeFile (path_join rendition_dir_path
          "xhtml_styles_with_override.css"))
        "Failed to write rendition override stylesheet."
    else pure []
  return ops1 ++ ops2

/-- Linking of non-spine resources into the contents directory
(`Library::link_rendition_contents_nonspine_resources`). -/
def link_rendition_contents_nonspine_resources (env : FsEnv)
    (info : EpubInfo) (contents_dir_path raw_rendition_path : String) :
    Except String (List FsOp) :=
  info.nonspine_resource_paths.foldlM
    (fun ops resource_path => do
      let resource_link_path := path_join contents_dir_path resource_path
      let o1 ← attempt_op env
        (.createDir (drop_last_component resource_link_path))
        "Failed to create directory."
      let o2 ← attempt_op env
        (.createLink resource_link_path
          (path_join raw_rendition_path resource_path))
        "Failed to link resource."
      return ops ++ o1 ++ o2)
    []

/-- Per-spine-item content transformation and write
(`Library::write_rendition_contents_modified_spine_items`):
`adjust_xhtml_source` reads each raw section (its XML transformation is
content-level and modelled as succeeding), then the transformed section
is written under the contents directory. -/
def write_rendition_contents_modified_spine_items (env : FsEnv)
    (info : EpubInfo) (contents_dir_path raw_rendition_path : String) :
    Except String (List FsOp) :=
  info.spine_items.foldlM
    (fun ops spine_item => do
      let raw_spine_item_path := path_join raw_rendition_path spine_item.path
      let modified_spine_item_path :=
        path_join contents_dir_path spine_item.path
      let o1 ← attempt_op env (.readFile raw_spine_item_path)
        "Failed to read spine item."
      let o2 ← attempt_op env
        (.createDir (drop_last_component modified_spine_item_path))
        "Failed to create directory."
      let o3 ← attempt_op env (.writeFile modified_spine_item_path)
        "Failed to write file."
      return ops ++ o1 ++ o2 ++ o3)
    []

/-- Stable navigation filename for a spine position
(`EpubInfo::get_spine_navigation_maps`): the index zero-padded to the
width of the spine length, plus the extension. -/
def navigation_filename (info : EpubInfo) (index : Nat) : String :=
  pad_left_zeros (Nat.repr info.spine_items.length).length (Nat.repr index)
    ++ ".xhtml"

/-- Navigation generation (`Library::write_navigation`): for each spine
position, read its transformed section (for wrapping), build the wrapper
(whose control decisions can fail on malformed books) and write the
navigation file; then write the navigation stylesheet and script. -/
def write_navigation (env : FsEnv) (info : EpubInfo)
    (rendition_dir_path : String) : Except String (List FsOp) := do
  let ops1 ← info.spine_items.enum.foldlM
    (fun ops p => do
      let o1 ← attempt_op env
        (.readFile (path_join rendition_dir_path
          (path_join "contents" p.2.path)))
        "Failed to read transformed spine item."
      let _ ← create_navigation_wrapper_controls info p.1
      let o2 ← attempt_op env
        (.writeFile (path_join rendition_dir_path
          (navigation_filename info p.1)))
        "Failed to write rendition navigation file."
      return ops ++ o1 ++ o2)
    []
  let ops2 ← attempt_op env
    (.writeFile (path_join rendition_dir_path "navigation_styles.css"))
    "Failed to write rendition navigation stylesheet."
  let ops3 ← attempt_op env
    (.writeFile (path_join rendition_dir_path "navigation_script.js"))
    "Failed to write rendition navigation script."
  return ops1 ++ ops2 ++ ops3

/-- Contents-directory generation
(`Library::generate_rendition_contents_dir`). -/
def generate_rendition_contents_dir (env : FsEnv) (info : EpubInfo)
    (style : Style) (rendition_dir_path raw_rendition_path : String) :
    Except String (List FsOp) := do
  let contents_dir_path := path_join rendition_dir_path "contents"
  let ops1 ← write_rendition_contents_stylesheets env style rendition_dir_path
  let ops2 ← link_rendition_contents_nonspine_resources env info
    contents_dir_path raw_rendition_path
  let ops3 ← write_rendition_contents_modified_spine_items env info
    contents_dir_path raw_rendition_path
  let ops4 ←
    if style.inject_navigation then
      write_navigation env info rendition_dir_path
    else pure []
  return ops1 ++ ops2 ++ ops3 ++ ops4

/-- The branch of `register_book_styles` that materializes the
artifacts a new rendition calls for — the four-way dispatch on
(`include_index`, `uses_raw_contents_dir`) — returning the default file
path of the rendition and the performed operations. -/
def rendition_artifacts (env : FsEnv) (info : EpubInfo) (style : Style)
    (library_path rendition_dir_path_from_library_root rendition_dir_path
      raw_rendition_path : String) :
    Except String (String × List FsOp) :=
  match style.include_index, style.uses_raw_contents_dir with
  | true, true => do
    let index_path :=
      path_join rendition_dir_path_from_library_root "index.xhtml"
    let ops ← write_style_index env info library_path index_path
      rendition_dir_path
    pure (index_path, ops)
  | true, false => do
    let index_path :=
      path_join rendition_dir_path_from_library_root "index.xhtml"
    let opsA ← write_style_index env info library_path index_path
      rendition_dir_path
    let opsB ← generate_rendition_contents_dir env info style
      rendition_dir_path raw_rendition_path
    pure (index_path, opsA ++ opsB)
  | false, true =>
    pure (info.raw_rendition.default_file_path_from_library_root,
      ([] : List FsOp))
  | false, false => do
    let ops ← generate_rendition_contents_dir env info style
      rendition_dir_path raw_rendition_path
    pure (path_join
      (path_join rendition_dir_path_from_library_root "contents")
      info.first_linear_spine_item_path, ops)

/-- Materialization of one new rendition, the per-style body of
`Library::register_book_styles` when no rendition for the style exists:
derive the directory path, create the directory, generate the artifacts
the style calls for, measure the directory size, and only then append
the new `EpubRenditionInfo` to the book record.  Any failure propagates
before the record is appended. -/
def register_style (env : FsEnv) (style_hash : Style → Nat)
    (library_path : String) (info : EpubInfo) (style : Style) :
    Except String (EpubInfo × List FsOp) := do
  let rendition_dir_path_from_library_root :=
    info.get_new_rendition_dir_path_from_style style_hash style
  let rendition_dir_path :=
    path_join library_path rendition_dir_path_from_library_root
  let ops1 ← attempt_op env (.createDir rendition_dir_path)
    "Could not create rendition directory for new style."
  let raw_rendition_path :=
    path_join library_path info.raw_rendition.dir_path_from_library_root
  let pair ← rendition_artifacts env info style library_path
    rendition_dir_path_from_library_root rendition_dir_path
    raw_rendition_path
  let ops3 ← attempt_op env (.readDirSize rendition_dir_path)
    "Could not read rendition directory size."
  let new_rendition : EpubRenditionInfo :=
    { style := style,
      dir_path_from_library_root := rendition_dir_path_from_library_root,
      default_file_path_from_library_root := pair.1,
      bytes := env.dir_size rendition_dir_path }
  return ({ info with
      nonraw_renditions := info.nonraw_renditions ++ [new_rendition] },
    ops1 ++ pair.2 ++ ops3)

/-- The style loop of `Library::register_book_styles`: styles that
already have a rendition are skipped entirely; a failure while
materializing a style stops the loop, keeping the book record as
mutated so far (the failing style appended nothing). -/
def register_loop (env : FsEnv) (style_hash : Style → Nat)
    (library_path : String) :
    List Style → EpubInfo → List FsOp → Bool →
    EpubInfo × List FsOp × Bool × Option String
  | [], info, ops, write_needed => (info, ops, write_needed, none)
  | style :: rest, info, ops, write_needed =>
    if (info.find_rendition style).isSome then
      register_loop env style_hash library_path rest info ops write_needed
    else
      match register_style env style_hash library_path info style with
      | .ok (info2, ops2) =>
        register_loop env style_hash library_path rest info2 (ops ++ ops2) true
      | .error msg => (info, ops, write_needed, some msg)

/-- Style registration (`Library::register_book_styles`): resolve the
book record, run the style loop, and on success write the library index
exactly when some style was newly materialized.  The returned triple is
the resulting library state, the successful filesystem operations in
order, and the propagated error if any. -/
def Library.register_book_styles (lib : Library) (env : FsEnv)
    (style_hash : Style → Nat) (id : String) (styles : List Style) :
    Library × List FsOp × Option String :=
  match lib.get_book id with
  | none =>
    (lib, [],
      some ("Could not register styles for book id " ++ id ++
        ": not found in library index."))
  | some info =>
    match register_loop env style_hash lib.library_path styles info [] false with
    | (info2, ops, write_needed, err) =>
      let lib2 := { lib with books := replace_first_book lib.books id info2 }
      match err with
      | some msg => (lib2, ops, some msg)
      | none =>
        if write_needed then (lib2, ops ++ [FsOp.writeLibraryIndex], none)
        else (lib2, ops, none)

/-! ## Auxiliary definitions for stating theorems, and concrete fixtures -/

/-- Sequential removal of a list of book ids (used to state which books
a truncation removed). -/
def remove_ids (ids : List String) (lib : Library) : Library :=
  ids.foldl (fun l i => l.remove_book i) lib

/-- A minimal test book record: one linear XHTML spine item, no
resources, no TOC, a raw rendition of the given byte size. -/
def mk_test_book (id : String) (t : Nat) (bytes : Nat) : EpubInfo :=
  { id := id
    title := id
    first_linear_spine_item_path := "a.xhtml"
    last_linear_spine_item_path := "a.xhtml"
    path_from_library_root := id
    last_opened_time := t
    last_opened_styles := []
    spine_items := [⟨"a.xhtml", .xhtml, true⟩]
    nonspine_resource_paths := []
    table_of_contents := []
    raw_rendition := ⟨Style.raw, id ++ "/raw", id ++ "/raw/a.xhtml", bytes⟩
    nonraw_renditions := [] }

/-- A linear XHTML spine item for a path. -/
def spine_item (p : String) : EpubSpineItem :=
  ⟨p, .xhtml, true⟩

/-- A leaf TOC entry targeting a fragmentless path. -/
def toc_leaf (l p : String) : EpubTocItem :=
  .mk l p p [] 0

/-- Three-item spine A, B, C. -/
def spine_abc : List EpubSpineItem :=
  [spine_item "a.xhtml", spine_item "b.xhtml", spine_item "c.xhtml"]

/-- TOC targeting A, B, C in spine order. -/
def toc_abc : List EpubTocItem :=
  [toc_leaf "A" "a.xhtml", toc_leaf "B" "b.xhtml", toc_leaf "C" "c.xhtml"]

/-- TOC targeting A, C, B — out of spine order. -/
def toc_acb : List EpubTocItem :=
  [toc_leaf "A" "a.xhtml", toc_leaf "C" "c.xhtml", toc_leaf "B" "b.xhtml"]

/-- Two-item spine A, B. -/
def spine_ab : List EpubSpineItem :=
  [spine_item "a.xhtml", spine_item "b.xhtml"]

/-- TOC targeting B, then A (a regression), then a path X absent from
the spine. -/
def toc_bax : List EpubTocItem :=
  [toc_leaf "B" "b.xhtml", toc_leaf "A" "a.xhtml", toc_leaf "X" "x.xhtml"]

/-- A book whose spine has exactly one (linear) item. -/
def book_single_linear : EpubInfo :=
  mk_test_book "solo" 1 0

/-- A book with five linear spine items. -/
def book_five_linear : EpubInfo :=
  { mk_test_book "five" 1 0 with
    first_linear_spine_item_path := "p0.xhtml"
    last_linear_spine_item_path := "p4.xhtml"
    spine_items := [spine_item "p0.xhtml", spine_item "p1.xhtml",
      spine_item "p2.xhtml", spine_item "p3.xhtml", spine_item "p4.xhtml"] }

/-- Filesystem environment where every operation succeeds and every
directory measures 0 bytes. -/
def env_all_ok : FsEnv :=
  ⟨fun _ => true, fun _ => 0⟩

/-- Filesystem environment where every operation fails. -/
def env_all_fail : FsEnv :=
  ⟨fun _ => false, fun _ => 0⟩

/-- A degenerate style fingerprint mapping every style to 0: any two
styles collide. -/
def zero_style_hash : Style → Nat :=
  fun _ => 0

/-- A stylesheet setting only the text color, without override. -/
def test_stylesheet_red : Stylesheet :=
  ⟨some ⟨"red", false⟩, none, none, none, none⟩

/-- A different stylesheet setting only the text color, without
override. -/
def test_stylesheet_blue : Stylesheet :=
  ⟨some ⟨"blue", false⟩, none, none, none, none⟩

/-- A style with no index and no navigation but a stylesheet (so it
does not reuse the raw contents directory and generates content without
touching the TOC or navigation machinery). -/
def style_red : Style :=
  ⟨false, false, some test_stylesheet_red⟩

/-- A second such style, distinct from `style_red`. -/
def style_blue : Style :=
  ⟨false, false, some test_stylesheet_blue⟩

/-- A one-book test library. -/
def test_library : Library :=
  ⟨"lib", [("book1", mk_test_book "book1" 1 7)]⟩

/-- Three books with last-opened times 1 < 2 < 3. -/
def lib_times_123 : Library :=
  ⟨"lib", [("a", mk_test_book "a" 1 0), ("b", mk_test_book "b" 2 0),
    ("c", mk_test_book "c" 3 0)]⟩

/-- Two books with the same last-opened time and sizes 100 and 200. -/
def lib_tiebreak : Library :=
  ⟨"lib", [("small", mk_test_book "small" 5 100),
    ("big", mk_test_book "big" 5 200)]⟩

/-- The raw extraction directory of the zip-slip scenario. -/
def raw_dir_fixture : SysPath :=
  ⟨[PathComponent.rootDir, PathComponent.normal "lib",
    PathComponent.normal "book", PathComponent.normal "raw"]⟩

/-- The unnormalized path the zip-slip scenario writes to. -/
def escaped_write_fixture : SysPath :=
  ⟨[PathComponent.rootDir, PathComponent.normal "lib",
    PathComponent.normal "book", PathComponent.normal "raw",
    PathComponent.parentDir, PathComponent.normal "evil.txt"]⟩

/-! ## Helper lemmas -/

theorem mem_insertSorted_iff (le : α → α → Bool) (x : α) (l : List α)
    (b : α) : b ∈ insertSorted le x l ↔ b = x ∨ b ∈ l := by
  induction l with
  | nil => simp [insertSorted]
  | cons y ys ih =>
    by_cases h : le x y = true
    · simp [insertSorted, h]
    · simp [insertSorted, h, ih]
      tauto

theorem mem_insertionSortBy (le : α → α → Bool) (l : List α) (b : α) :
    b ∈ insertionSortBy le l ↔ b ∈ l := by
  induction l with
  | nil => simp [insertionSortBy]
  | cons x xs ih =>
    simp [insertionSortBy, mem_insertSorted_iff, ih]

theorem pairwise_insertSorted (le : α → α → Bool)
    (htr : ∀ a b c, le a b = true → le b c = true → le a c = true)
    (hto : ∀ a b, le a b = true ∨ le b a = true)
    (x : α) (l : List α) (hl : List.Pairwise (fun a b => le a b = true) l) :
    List.Pairwise (fun a b => le a b = true) (insertSorted le x l) := by
  induction l with
  | nil => simp [insertSorted]
  | cons y ys ih =>
    cases hl with
    | cons hy hys =>
      by_cases h : le x y = true
      · simp only [insertSorted, h, if_true]
        refine List.Pairwise.cons ?_ (List.Pairwise.cons hy hys)
        intro b hb
        simp at hb
        rcases hb with h1 | h1
        · simpa [h1] using h
        · exact htr x y b h (hy b h1)
      · simp only [insertSorted, h, if_false, Bool.false_eq_true]
        refine List.Pairwise.cons ?_ (ih hys)
        intro b hb
        rcases (mem_insertSorted_iff le x ys b).mp hb with h1 | h1
        · rw [h1]
          rcases hto x y with h2 | h2
          · exact absurd h2 h
          · exact h2
        · exact hy b h1

theorem pairwise_insertionSortBy (le : α → α → Bool)
    (htr : ∀ a b c, le a b = true → le b c = true → le a c = true)
    (hto : ∀ a b, le a b = true ∨ le b a = true) (l : List α) :
    List.Pairwise (fun a b => le a b = true) (insertionSortBy le l) := by
  induction l with
  | nil => simp [insertionSortBy]
  | cons x xs ih => exact pairwise_insertSorted le htr hto x _ ih

theorem is_oversized_false_iff (lib : Library) (mb mB : Option Nat) :
    lib.is_oversized mb mB = false ↔
      (∀ m, mb = some m → lib.books.length ≤ m) ∧
      (∀ m, mB = some m → lib.size_in_bytes ≤ m) := by
  cases mb <;> cases mB <;> simp [Library.is_oversized]

theorem truncate_loop_reaches (mb mB : Option Nat) (cands : List String) :
    ∀ lib, ∃ k,
      truncate_loop mb mB cands lib = remove_ids (cands.take k) lib := by
  induction cands with
  | nil => exact fun lib => ⟨0, rfl⟩
  | cons id rest ih =>
    intro lib
    by_cases h : lib.is_oversized mb mB = true
    · obtain ⟨k, hk⟩ := ih (lib.remove_book id)
      refine ⟨k + 1, ?_⟩
      simpa [truncate_loop, h, remove_ids, List.take_succ_cons] using hk
    · refine ⟨0, ?_⟩
      simp [truncate_loop, h, remove_ids]

theorem truncate_loop_invariant (mb mB : Option Nat) (cands : List String) :
    ∀ lib, (truncate_loop mb mB cands lib).is_oversized mb mB = false ∨
      (∀ b ∈ (truncate_loop mb mB cands lib).books,
        b ∈ lib.books ∧ ¬ b.1 ∈ cands) := by
  induction cands with
  | nil =>
    intro lib
    exact Or.inr (fun b hb => ⟨hb, by simp⟩)
  | cons id rest ih =>
    intro lib
    by_cases h : lib.is_oversized mb mB = true
    · rcases ih (lib.remove_book id) with h1 | h1
      · left
        simp only [truncate_loop, h, if_true]
        exact h1
      · right
        intro b hb
        simp only [truncate_loop, h, if_true] at hb
        obtain ⟨hb1, hb2⟩ := h1 b hb
        simp only [Library.remove_book, List.mem_filter] at hb1
        obtain ⟨hb3, hb4⟩ := hb1
        refine ⟨hb3, ?_⟩
        simp at hb4 ⊢
        exact ⟨hb4, hb2⟩
    · left
      simp only [truncate_loop, h, if_false, Bool.false_eq_true]

theorem spec_nonlinear_walk_iff (idxs : List Nat) : ∀ m : Nat,
    spec_nonlinear_walk m idxs ↔
      ∃ i a, idxs.get? i = some a ∧ a < running_max_from m idxs i := by
  induction idxs with
  | nil =>
    intro m
    simp [spec_nonlinear_walk]
  | cons x xs ih =>
    intro m
    have hsplit :
        (∃ i a, (x :: xs).get? i = some a ∧
          a < running_max_from m (x :: xs) i) ↔
        (x < m ∨ ∃ j a, xs.get? j = some a ∧
          a < running_max_from (max m x) xs j) := by
      constructor
      · rintro ⟨i, a, ha, hlt⟩
        cases i with
        | zero =>
          left
          simp only [List.get?] at ha
          cases ha
          simpa [running_max_from] using hlt
        | succ j =>
          right
          refine ⟨j, a, by simpa using ha, ?_⟩
          simpa [running_max_from, List.take_succ_cons] using hlt
      · rintro (h | ⟨j, a, ha, hlt⟩)
        · exact ⟨0, x, rfl, by simpa [running_max_from] using h⟩
        · refine ⟨j + 1, a, by simpa using ha, ?_⟩
          simpa [running_max_from, List.take_succ_cons] using hlt
    rw [hsplit]
    simp only [spec_nonlinear_walk]
    by_cases hxm : x < m
    · simp [hxm]
    · have hmx : m ≤ x := Nat.le_of_not_lt hxm
      rw [Nat.max_eq_right hmx, ih x]
      simp [hxm, hmx]

theorem flattened_toc_is_linear_loop_char (spine : List EpubSpineItem) :
    ∀ (items : List EpubTocItem) (idxs : List Nat) (m : Nat),
      items.map (toc_spine_index spine) = idxs.map some →
      (flattened_toc_is_linear_loop spine items m = .ok false ↔
        spec_nonlinear_walk m idxs) ∧
      (flattened_toc_is_linear_loop spine items m = .ok true ↔
        ¬ spec_nonlinear_walk m idxs) := by
  intro items
  induction items with
  | nil =>
    intro idxs m h
    have : idxs = [] := by
      cases idxs with
      | nil => rfl
      | cons a as => simp at h
    subst this
    simp [flattened_toc_is_linear_loop, spec_nonlinear_walk]
  | cons t rest ih =>
    intro idxs m h
    cases idxs with
    | nil => simp at h
    | cons x xs =>
      simp only [List.map_cons, List.cons.injEq] at h
      obtain ⟨h1, h2⟩ := h
      have h1a : spine.findIdx?
          (fun s => s.path == t.path_without_fragment) = some x := h1
      by_cases hx : x < m
      · simp only [flattened_toc_is_linear_loop, h1a, hx, if_true]
        exact ⟨iff_of_true (by simp) (Or.inl hx),
          iff_of_false (by simp) (fun hns => hns (Or.inl hx))⟩
      · obtain ⟨ih1, ih2⟩ := ih xs x h2
        simp only [flattened_toc_is_linear_loop, h1a, hx, if_false]
        have hspec : spec_nonlinear_walk m (x :: xs) ↔
            spec_nonlinear_walk x xs := by
          simp [spec_nonlinear_walk, hx, Nat.le_of_not_lt hx]
        rw [hspec]
        exact ⟨ih1, ih2⟩

theorem from_spine_and_toc_char (spine : List EpubSpineItem)
    (toc : List EpubTocItem) (idxs : List Nat)
    (h : (EpubTocItem.flattened_list toc).map (toc_spine_index spine) =
      idxs.map some) :
    (EpubIndex.from_spine_and_toc spine toc =
        .ok (.tocNonlinearRelativeToSpine spine
          (EpubTocItem.flattened_list toc)) ↔
      has_running_max_regression idxs) ∧
    (EpubIndex.from_spine_and_toc spine toc =
        .ok (.tocLinearRelativeToSpine
          (map_spine_to_flattened_toc spine
            (EpubTocItem.flattened_list toc))) ↔
      ¬ has_running_max_regression idxs) := by
  obtain ⟨l1, l2⟩ := flattened_toc_is_linear_loop_char spine
    (EpubTocItem.flattened_list toc) idxs 0 h
  have hreg : has_running_max_regression idxs ↔
      spec_nonlinear_walk 0 idxs := by
    simp only [has_running_max_regression, running_max_before]
    exact (spec_nonlinear_walk_iff idxs 0).symm
  cases hb : flattened_toc_is_linear_loop spine
      (EpubTocItem.flattened_list toc) 0 with
  | ok b =>
    cases b with
    | false =>
      have hs : spec_nonlinear_walk 0 idxs := l1.mp hb
      have hfrom : EpubIndex.from_spine_and_toc spine toc =
          .ok (.tocNonlinearRelativeToSpine spine
            (EpubTocItem.flattened_list toc)) := by
        simp only [EpubIndex.from_spine_and_toc,
          flattened_toc_is_linear_relative_to_spine, hb]
        rfl
      rw [hfrom]
      exact ⟨iff_of_true rfl (hreg.mpr hs),
        iff_of_false (by simp) (fun hn => hn (hreg.mpr hs))⟩
    | true =>
      have hs : ¬ spec_nonlinear_walk 0 idxs := l2.mp hb
      have hfrom : EpubIndex.from_spine_and_toc spine toc =
          .ok (.tocLinearRelativeToSpine
            (map_spine_to_flattened_toc spine
              (EpubTocItem.flattened_list toc))) := by
        simp only [EpubIndex.from_spine_and_toc,
          flattened_toc_is_linear_relative_to_spine, hb]
        rfl
      rw [hfrom]
      exact ⟨iff_of_false (by simp) (fun hr => hs (hreg.mp hr)),
        iff_of_true rfl (fun hr => hs (hreg.mp hr))⟩
  | error e =>
    rw [hb] at l1 l2
    simp at l1 l2
    exact absurd l2 l1

/-- C1: for every library, every `max_books` and `max_bytes` setting and
every protected-id set, after `truncate` returns the library satisfies
`books.len() <= max_books` (when set) and total rendition bytes
`<= max_bytes` (when set), or else every book not in the protected set
has been removed. -/
theorem c1_truncate_eviction_invariant (lib : Library)
    (mb mB : Option Nat) (excl : List String) :
    ((∀ m, mb = some m → (lib.truncate mb mB excl).books.length ≤ m) ∧
      (∀ m, mB = some m → (lib.truncate mb mB excl).size_in_bytes ≤ m)) ∨
    (∀ b ∈ (lib.truncate mb mB excl).books, excl.contains b.1 = true) := by
  by_cases h : lib.is_oversized mb mB = true
  · have hres : lib.truncate mb mB excl =
        truncate_loop mb mB
          ((lib.truncation_candidates excl).map (fun b => b.1)) lib := by
      simp [Library.truncate, h]
    rcases truncate_loop_invariant mb mB
        ((lib.truncation_candidates excl).map (fun b => b.1)) lib with h1 | h1
    · left
      rw [hres]
      exact (is_oversized_false_iff _ mb mB).mp h1
    · right
      rw [hres]
      intro b hb
      obtain ⟨hb1, hb2⟩ := h1 b hb
      by_contra hc
      have hc2 : excl.contains b.1 = false := by
        cases h3 : excl.contains b.1
        · rfl
        · exact absurd h3 hc
      have hmemf : b ∈ lib.books.filter (fun b => !(excl.contains b.1)) :=
        List.mem_filter.mpr ⟨hb1, by
          simp only [Bool.not_eq_true']
          exact hc2⟩
      have hmems : b ∈ lib.truncation_candidates excl :=
        (mem_insertionSortBy eviction_le _ b).mpr hmemf
      exact hb2 (List.mem_map.mpr ⟨b, hmems, rfl⟩)
  · have hres : lib.truncate mb mB excl = lib := by
      simp [Library.truncate, h]
    left
    rw [hres]
    exact (is_oversized_false_iff lib mb mB).mp (eq_false_of_ne_true h)

/-- C5: when the library is oversized, `truncate` removes non-protected
books one at a time following the candidate ordering — ascending
last-opened time with ties broken by descending byte size — re-checking
the oversized condition after each removal and stopping as soon as it
clears: the removed ids are always a prefix of that ordering, the
ordering is sorted by the eviction comparator, and in particular three
books at times 1 < 2 < 3 truncated to `max_books = 2` lose exactly the
time-1 book, while of two equally-stale books of 100 and 200 bytes the
200-byte one is removed first. -/
theorem c5_truncate_eviction_order :
    (∀ (lib : Library) (mb mB : Option Nat) (excl : List String), ∃ k,
      lib.truncate mb mB excl =
        remove_ids
          (((lib.truncation_candidates excl).map (fun b => b.1)).take k)
          lib) ∧
    (∀ (lib : Library) (excl : List String),
      List.Pairwise (fun a b => eviction_le a b = true)
        (lib.truncation_candidates excl)) ∧
    lib_times_123.truncate (some 2) none [] =
      ⟨"lib", [("b", mk_test_book "b" 2 0), ("c", mk_test_book "c" 3 0)]⟩ ∧
    lib_tiebreak.truncate (some 1) none [] =
      ⟨"lib", [("small", mk_test_book "small" 5 100)]⟩ := by
  refine ⟨?_, ?_, rfl, rfl⟩
  · intro lib mb mB excl
    by_cases h : lib.is_oversized mb mB = true
    · have hres : lib.truncate mb mB excl =
          truncate_loop mb mB
            ((lib.truncation_candidates excl).map (fun b => b.1)) lib := by
        simp [Library.truncate, h]
      obtain ⟨k, hk⟩ := truncate_loop_reaches mb mB
        ((lib.truncation_candidates excl).map (fun b => b.1)) lib
      exact ⟨k, by rw [hres, hk]⟩
    · refine ⟨0, ?_⟩
      simp [Library.truncate, h, remove_ids]
  · intro lib excl
    refine pairwise_insertionSortBy eviction_le ?_ ?_ _
    · intro a b c hab hbc
      simp only [eviction_le, Bool.or_eq_true, Bool.and_eq_true,
        decide_eq_true_eq, beq_iff_eq] at hab hbc ⊢
      omega
    · intro a b
      simp only [eviction_le, Bool.or_eq_true, Bool.and_eq_true,
        decide_eq_true_eq, beq_iff_eq]
      omega

/-- C2: the zip-slip containment check of raw extraction is a
component-wise `starts_with` on the unnormalized joined path, which a
resource path beginning with a parent-directory component passes: the
resource `../evil.txt` is extracted without error, and the file it
writes resolves to a location outside the raw extraction directory. -/
theorem c2_zip_slip_parent_escape_written :
    extract_epub_to_raw_dir raw_dir_fixture
        [⟨[PathComponent.parentDir, PathComponent.normal "evil.txt"]⟩] =
      .ok [escaped_write_fixture] ∧
    escaped_write_fixture.resolved = some ["lib", "book", "evil.txt"] ∧
    raw_dir_fixture.resolved = some ["lib", "book", "raw"] ∧
    resolved_under ["lib", "book", "evil.txt"] ["lib", "book", "raw"] =
      false := by
  exact ⟨rfl, rfl, rfl, rfl⟩

/-- C6 (amended): when every flattened TOC target appears in the spine,
the reconciler classifies Nonlinear exactly when some entry has spine
index strictly below the running maximum (seeded with 0) of the entries
before it, and Linear exactly otherwise; a TOC target path absent from
the spine raises an error only when the walk reaches it before any
regression — an earlier regression classifies Nonlinear at once without
examining later entries.  In particular spine `[A, B, C]` with TOC
targets `[A, B, C]` classifies Linear and with targets `[A, C, B]`
classifies Nonlinear. -/
theorem c6_linearity_classification :
    (∀ (spine : List EpubSpineItem) (toc : List EpubTocItem)
      (idxs : List Nat),
      (EpubTocItem.flattened_list toc).map (toc_spine_index spine) =
        idxs.map some →
      (EpubIndex.from_spine_and_toc spine toc =
          .ok (.tocNonlinearRelativeToSpine spine
            (EpubTocItem.flattened_list toc)) ↔
        has_running_max_regression idxs) ∧
      (EpubIndex.from_spine_and_toc spine toc =
          .ok (.tocLinearRelativeToSpine
            (map_spine_to_flattened_toc spine
              (EpubTocItem.flattened_list toc))) ↔
        ¬ has_running_max_regression idxs)) ∧
    EpubIndex.from_spine_and_toc spine_abc toc_abc =
      .ok (.tocLinearRelativeToSpine
        (map_spine_to_flattened_toc spine_abc
          (EpubTocItem.flattened_list toc_abc))) ∧
    EpubIndex.from_spine_and_toc spine_abc toc_acb =
      .ok (.tocNonlinearRelativeToSpine spine_abc
        (EpubTocItem.flattened_list toc_acb)) :=
  ⟨from_spine_and_toc_char, rfl, rfl⟩

/-- C6 witness: the general classification applied to the concrete
nonlinear example, whose flattened TOC has spine indices `[0, 2, 1]` and
therefore a running-maximum regression. -/
theorem c6_linearity_classification_witness :
    (EpubTocItem.flattened_list toc_acb).map (toc_spine_index spine_abc) =
      [0, 2, 1].map some ∧
    has_running_max_regression [0, 2, 1] :=
  ⟨rfl,
    ((c6_linearity_classification.1 spine_abc toc_acb [0, 2, 1] rfl).1).mp rfl⟩

/-- C6 counterexample: with spine `[A, B]` and TOC targets `[B, A, X]`
the reconciler returns Nonlinear without error, although the TOC target
path `x.xhtml` does not appear in the spine — the regression at `A` ends
the walk before the absent target is examined, refuting the claim that a
TOC target path absent from the spine always raises an error. -/
theorem c6_absent_target_no_error :
    EpubIndex.from_spine_and_toc spine_ab toc_bax =
      .ok (.tocNonlinearRelativeToSpine spine_ab
        (EpubTocItem.flattened_list toc_bax)) ∧
    ((EpubTocItem.flattened_list toc_bax).map
        EpubTocItem.path_without_fragment).contains "x.xhtml" = true ∧
    spine_ab.all (fun s => !(s.path == "x.xhtml")) = true :=
  ⟨rfl, rfl, rfl⟩

theorem find_replace_first_self (books : List (String × EpubInfo))
    (id : String) (info2 : EpubInfo)
    (h : (books.find? (fun b => b.1 == id)).isSome = true) :
    (replace_first_book books id info2).find? (fun b => b.1 == id) =
      some (id, info2) := by
  induction books with
  | nil => simp [List.find?] at h
  | cons p rest ih =>
    obtain ⟨k, v⟩ := p
    cases hk : (k == id) with
    | true =>
      have hkid : k = id := by simpa using hk
      subst hkid
      simp [replace_first_book, List.find?]
    | false =>
      have h2 : (rest.find? (fun b => b.1 == id)).isSome = true := by
        simpa [List.find?, hk] using h
      simp [replace_first_book, hk, List.find?, ih h2]

theorem find_replace_first_other (books : List (String × EpubInfo))
    (id id2 : String) (info2 : EpubInfo) (hne : id2 ≠ id) :
    (replace_first_book books id info2).find? (fun b => b.1 == id2) =
      books.find? (fun b => b.1 == id2) := by
  induction books with
  | nil => rfl
  | cons p rest ih =>
    obtain ⟨k, v⟩ := p
    cases hk : (k == id) with
    | true =>
      have hkid : k = id := by simpa using hk
      have hk2 : (k == id2) = false := by
        simp [hkid]
        exact fun hcontra => hne hcontra.symm
      simp [replace_first_book, hk, List.find?, hk2]
    | false =>
      cases hk2 : (k == id2) with
      | true =>
        simp [replace_first_book, hk, List.find?, hk2]
      | false =>
        simp [replace_first_book, hk, List.find?, hk2, ih]

theorem replace_first_book_self (id : String) (info : EpubInfo) :
    ∀ books : List (String × EpubInfo),
      (books.find? (fun b => b.1 == id)).map (fun b => b.2) = some info →
      replace_first_book books id info = books := by
  intro books
  induction books with
  | nil => simp [List.find?]
  | cons p rest ih =>
    obtain ⟨k, v⟩ := p
    intro h
    cases hk : (k == id) with
    | true =>
      have hv : v = info := by simpa [List.find?, hk] using h
      subst hv
      simp [replace_first_book, hk]
    | false =>
      have h2 : (rest.find? (fun b => b.1 == id)).map (fun b => b.2) =
          some info := by simpa [List.find?, hk] using h
      simp [replace_first_book, hk, ih h2]

/-- C10: for every successful `open_book(id, request_time, style)` on a
registered book with a registered style, when the recorded
`last_opened_time` already equals the request time the style is appended
to `last_opened_styles`, and otherwise `last_opened_time` is set to the
request time and `last_opened_styles` is reset to the singleton list of
that style; no other book record changes. -/
theorem c10_open_book_records_access (lib : Library) (id : String)
    (t : Nat) (style : Style) (info : EpubInfo)
    (hb : lib.get_book id = some info)
    (hr : (info.find_rendition style).isSome = true) :
    ∃ lib2, lib.open_book id t style = some lib2 ∧
      lib2.get_book id = some
        (if info.last_opened_time == t then
          { info with last_opened_styles := info.last_opened_styles ++ [style] }
        else
          { info with last_opened_time := t, last_opened_styles := [style] }) ∧
      (∀ id2, id2 ≠ id → lib2.get_book id2 = lib.get_book id2) ∧
      lib2.library_path = lib.library_path := by
  obtain ⟨r, hr2⟩ := Option.isSome_iff_exists.mp hr
  have hfind : (lib.books.find? (fun b => b.1 == id)).isSome = true := by
    simp only [Library.get_book] at hb
    cases hf : lib.books.find? (fun b => b.1 == id) with
    | none => rw [hf] at hb; simp at hb
    | some p => simp
  have hopen : lib.open_book id t style = some { lib with
      books := replace_first_book lib.books id
        (if info.last_opened_time == t then
          { info with
            last_opened_styles := info.last_opened_styles ++ [style] }
        else
          { info with last_opened_time := t, last_opened_styles := [style] }) } := by
    simp only [Library.open_book, hb, hr2]
  refine ⟨_, hopen, ?_, ?_, rfl⟩
  · simp only [Library.get_book, find_replace_first_self lib.books id _ hfind]
    rfl
  · intro id2 hne
    simp only [Library.get_book,
      find_replace_first_other lib.books id id2 _ hne]

/-- C10 witness: opening the test book at a fresh request time resets
its last-opened record to that time and the singleton style list. -/
theorem c10_open_book_records_access_witness :
    test_library.get_book "book1" = some (mk_test_book "book1" 1 7) ∧
    ((mk_test_book "book1" 1 7).find_rendition Style.raw).isSome = true ∧
    (∃ lib2, test_library.open_book "book1" 9 Style.raw = some lib2 ∧
      lib2.get_book "book1" = some
        (if (mk_test_book "book1" 1 7).last_opened_time == 9 then
          { mk_test_book "book1" 1 7 with
            last_opened_styles :=
              (mk_test_book "book1" 1 7).last_opened_styles ++ [Style.raw] }
        else
          { mk_test_book "book1" 1 7 with
            last_opened_time := 9
            last_opened_styles := [Style.raw] }) ∧
      (∀ id2, id2 ≠ "book1" →
        lib2.get_book id2 = test_library.get_book id2) ∧
      lib2.library_path = test_library.library_path) :=
  ⟨rfl, rfl,
    c10_open_book_records_access test_library "book1" 9 Style.raw
      (mk_test_book "book1" 1 7) rfl rfl⟩

theorem register_loop_all_existing (env : FsEnv) (sh : Style → Nat)
    (lp : String) (styles : List Style) :
    ∀ (info : EpubInfo) (ops : List FsOp) (wn : Bool),
      (∀ s ∈ styles, (info.find_rendition s).isSome = true) →
      register_loop env sh lp styles info ops wn = (info, ops, wn, none) := by
  induction styles with
  | nil =>
    intro info ops wn _
    rfl
  | cons s rest ih =>
    intro info ops wn hall
    have hs : (info.find_rendition s).isSome = true :=
      hall s (List.mem_cons_self s rest)
    simp only [register_loop, hs, if_true]
    exact ih info ops wn (fun s2 hs2 => hall s2 (List.mem_cons_of_mem s hs2))

/-- C4: registering styles on a book is idempotent — when every
requested style already has a rendition record, the registration call
leaves the library unchanged, appends no rendition record, performs no
filesystem operation (no library-index write included), and reports no
error. -/
theorem c4_register_existing_styles_is_noop (env : FsEnv)
    (sh : Style → Nat) (lib : Library) (id : String) (info : EpubInfo)
    (styles : List Style)
    (hb : lib.get_book id = some info)
    (hall : ∀ s ∈ styles, (info.find_rendition s).isSome = true) :
    lib.register_book_styles env sh id styles = (lib, [], none) := by
  have hrep : replace_first_book lib.books id info = lib.books :=
    replace_first_book_self id info lib.books hb
  simp only [Library.register_book_styles, hb,
    register_loop_all_existing env sh lib.library_path styles info [] false
      hall, hrep, Bool.false_eq_true, if_false]

/-- C4 witness: re-registering the raw style (whose rendition always
exists) on the test book changes nothing and performs no filesystem
operation. -/
theorem c4_register_existing_styles_is_noop_witness :
    test_library.get_book "book1" = some (mk_test_book "book1" 1 7) ∧
    (∀ s ∈ [Style.raw],
      ((mk_test_book "book1" 1 7).find_rendition s).isSome = true) ∧
    test_library.register_book_styles env_all_ok zero_style_hash "book1"
      [Style.raw] = (test_library, [], none) :=
  ⟨rfl, by decide,
    c4_register_existing_styles_is_noop env_all_ok zero_style_hash
      test_library "book1" (mk_test_book "book1" 1 7) [Style.raw] rfl
      (by decide)⟩

/-- C9: when materializing a rendition for a single requested style
fails — directory creation, any file write, or any other step — the
error propagates to the caller and the library is left unchanged: in
particular no rendition record for that style has been appended. -/
theorem c9_register_error_appends_nothing (env : FsEnv)
    (sh : Style → Nat) (lib : Library) (id : String) (style : Style)
    (lib2 : Library) (ops : List FsOp) (msg : String)
    (h : lib.register_book_styles env sh id [style] = (lib2, ops, some msg)) :
    lib2 = lib := by
  cases hg : lib.get_book id with
  | none =>
    simp only [Library.register_book_styles, hg] at h
    exact (congrArg Prod.fst h).symm
  | some info =>
    cases hf : (info.find_rendition style).isSome with
    | true =>
      simp only [Library.register_book_styles, hg, register_loop, hf,
        if_true] at h
      have h3 := congrArg (fun p => p.2.2) h
      simp at h3
    | false =>
      cases hr : register_style env sh lib.library_path info style with
      | ok pair =>
        simp only [Library.register_book_styles, hg, register_loop, hf,
          Bool.false_eq_true, if_false, hr] at h
        have h3 := congrArg (fun p => p.2.2) h
        simp at h3
      | error m =>
        simp only [Library.register_book_styles, hg, register_loop, hf,
          Bool.false_eq_true, if_false, hr] at h
        have h1 := congrArg Prod.fst h
        simp only at h1
        rw [← h1, replace_first_book_self id info lib.books hg]

/-- C9 witness: with an environment in which every filesystem operation
fails, registering a fresh style propagates the directory-creation error
and leaves the library exactly as it was. -/
theorem c9_register_error_appends_nothing_witness :
    (test_library.register_book_styles env_all_fail zero_style_hash "book1"
        [style_red]).2.2 =
      some "Could not create rendition directory for new style." ∧
    (test_library.register_book_styles env_all_fail zero_style_hash "book1"
        [style_red]).1 = test_library :=
  ⟨rfl,
    c9_register_error_appends_nothing env_all_fail zero_style_hash
      test_library "book1" style_red _ _
      "Could not create rendition directory for new style." rfl⟩

theorem find_set_target_attribute (t : String) :
    ∀ attrs : List XmlAttribute,
      (set_target_attribute attrs t).find? (fun a => a.name == "target") =
        some ⟨"target", t⟩ := by
  intro attrs
  induction attrs with
  | nil => rfl
  | cons a rest ih =>
    cases ha : (a.name == "target") with
    | true =>
      have han : a.name = "target" := by simpa using ha
      simp only [set_target_attribute, ha, if_true, List.find?]
      simp [han]
    | false =>
      simp only [set_target_attribute, ha, Bool.false_eq_true, if_false,
        List.find?, ih]

/-- C7: for every anchor element of a transformed content section that
carries an `href`, the rewritten attributes give it target `_blank` when
the href parses as a standalone absolute URL, and, when the href is a
relative reference, target `_self` with navigation injection off and
`_parent` with navigation injection on. -/
theorem c7_link_target_policy (parse_url : String → UrlParseOutcome)
    (rewrite_to_navigation : String → Except String (Option String))
    (inject_navigation : Bool) (attrs : List XmlAttribute)
    (href_attribute : XmlAttribute)
    (hhref : attrs.find? (fun a => a.name == "href") = some href_attribute) :
    (parse_url href_attribute.value = .absolute →
      ∀ res, adjust_anchor_attributes parse_url rewrite_to_navigation
          inject_navigation attrs = .ok res →
        res.find? (fun a => a.name == "target") =
          some ⟨"target", "_blank"⟩) ∧
    (parse_url href_attribute.value = .relativeNoBase →
      ∀ res, adjust_anchor_attributes parse_url rewrite_to_navigation
          inject_navigation attrs = .ok res →
        res.find? (fun a => a.name == "target") =
          some ⟨"target", if inject_navigation then "_parent" else "_self"⟩) := by
  constructor
  · intro hp res hres
    cases hnav : inject_navigation with
    | false =>
      simp only [adjust_anchor_attributes, hhref, hp, hnav] at hres
      cases hres
      exact find_set_target_attribute "_blank" attrs
    | true =>
      simp only [adjust_anchor_attributes, hhref, hp, hnav] at hres
      cases hrw : rewrite_to_navigation href_attribute.value with
      | error m =>
        rw [hrw] at hres
        cases hres
      | ok o =>
        rw [hrw] at hres
        cases o with
        | none =>
          cases hres
          exact find_set_target_attribute "_blank" attrs
        | some v =>
          cases hres
          exact find_set_target_attribute "_blank" _
  · intro hp res hres
    cases hnav : inject_navigation with
    | false =>
      simp only [adjust_anchor_attributes, hhref, hp, hnav] at hres
      cases hres
      simp only [Bool.false_eq_true, if_false]
      exact find_set_target_attribute "_self" attrs
    | true =>
      simp only [adjust_anchor_attributes, hhref, hp, hnav] at hres
      cases hrw : rewrite_to_navigation href_attribute.value with
      | error m =>
        rw [hrw] at hres
        cases hres
      | ok o =>
        rw [hrw] at hres
        cases o with
        | none =>
          cases hres
          simp only [if_true]
          exact find_set_target_attribute "_parent" attrs
        | some v =>
          cases hres
          simp only [if_true]
          exact find_set_target_attribute "_parent" _

/-- C7 witness: a relative link in a section transformed with navigation
injection on receives target `_parent`. -/
theorem c7_link_target_policy_witness :
    ([⟨"href", "ch2.xhtml"⟩] : List XmlAttribute).find?
        (fun a => a.name == "href") = some ⟨"href", "ch2.xhtml"⟩ ∧
    (fun _ : String => UrlParseOutcome.relativeNoBase) "ch2.xhtml" =
      .relativeNoBase ∧
    ∀ res, adjust_anchor_attributes
        (fun _ => UrlParseOutcome.relativeNoBase)
        (fun _ => .ok none) true [⟨"href", "ch2.xhtml"⟩] = .ok res →
      res.find? (fun a => a.name == "target") =
        some ⟨"target", if true then "_parent" else "_self"⟩ :=
  ⟨rfl, rfl,
    (c7_link_target_policy (fun _ => UrlParseOutcome.relativeNoBase)
      (fun _ => .ok none) true [⟨"href", "ch2.xhtml"⟩]
      ⟨"href", "ch2.xhtml"⟩ rfl).2 rfl⟩

theorem except_bind_ok (a : α) (f : α → Except ε β) :
    (Except.ok a >>= f : Except ε β) = f a :=
  rfl

theorem except_bind_error (e : ε) (f : α → Except ε β) :
    (Except.error e >>= f : Except ε β) = Except.error e :=
  rfl

theorem except_map_ok (a : α) (f : α → β) :
    (f <$> Except.ok a : Except ε β) = Except.ok (f a) :=
  rfl

theorem except_map_error (e : ε) (f : α → β) :
    (f <$> Except.error e : Except ε β) = Except.error e :=
  rfl

theorem except_pure_eq_ok (a : α) :
    (pure a : Except ε α) = Except.ok a :=
  rfl

theorem prev_linear_scan_ok (info : EpubInfo) (j : Nat)
    (item : EpubSpineItem) (hjl : info.spine_items.get? j = some item)
    (hlin : item.linear = true) :
    ∀ i, j ≤ i → i < info.spine_items.length →
      ∃ p, prev_linear_scan info i = .ok p := by
  intro i
  induction i with
  | zero =>
    intro hj _
    have hj0 : j = 0 := Nat.le_zero.mp hj
    rw [hj0] at hjl
    have hjl2 : info.spine_items[0]? = some item := by simpa using hjl
    exact ⟨item.path, by simp [prev_linear_scan, hjl2, hlin]⟩
  | succ i ih =>
    intro hj hlt
    cases hg : info.spine_items.get? (i + 1) with
    | none =>
      exfalso
      have := List.get?_eq_none.mp hg
      omega
    | some it =>
      have hg2 : info.spine_items[i + 1]? = some it := by simpa using hg
      cases hl : it.linear with
      | true =>
        exact ⟨it.path, by simp [prev_linear_scan, hg2, hl]⟩
      | false =>
        have hji : j ≤ i := by
          rcases Nat.lt_or_ge j (i + 1) with hcase | hcase
          · omega
          · exfalso
            have hjeq : j = i + 1 := by omega
            rw [hjeq, hg] at hjl
            cases hjl
            rw [hlin] at hl
            cases hl
        obtain ⟨p, hp⟩ := ih hji (by omega)
        exact ⟨p, by simp [prev_linear_scan, hg2, hl, hp]⟩

theorem next_linear_scan_ok (info : EpubInfo) (j : Nat)
    (item : EpubSpineItem) (hjl : info.spine_items.get? j = some item)
    (hlin : item.linear = true) :
    ∀ i, i ≤ j → ∃ p, next_linear_scan info i = .ok p := by
  have hjlen : j < info.spine_items.length := by
    cases hcase : info.spine_items.get? j with
    | none => rw [hcase] at hjl; cases hjl
    | some it => exact (List.get?_eq_some.mp hcase).1
  have main : ∀ n i, i ≤ j → j - i = n →
      ∃ p, next_linear_scan info i = .ok p := by
    intro n
    induction n with
    | zero =>
      intro i hij hn
      have hij2 : i = j := by omega
      rw [hij2]
      refine ⟨item.path, ?_⟩
      rw [next_linear_scan]
      split
      · rename_i b hb
        rw [hjl] at hb
        cases hb
        simp [hlin]
      · rename_i hb
        rw [hjl] at hb
        cases hb
    | succ n ihn =>
      intro i hij hn
      have hilt : i < j := by omega
      cases hg : info.spine_items.get? i with
      | none =>
        exfalso
        have := List.get?_eq_none.mp hg
        omega
      | some it =>
        cases hl : it.linear with
        | true =>
          refine ⟨it.path, ?_⟩
          rw [next_linear_scan]
          split
          · rename_i b hb
            rw [hg] at hb
            cases hb
            simp [hl]
          · rename_i hb
            rw [hg] at hb
            cases hb
        | false =>
          obtain ⟨p, hp⟩ := ihn (i + 1) (by omega) (by omega)
          refine ⟨p, ?_⟩
          rw [next_linear_scan]
          split
          · rename_i b hb
            rw [hg] at hb
            cases hb
            simp [hl, hp]
          · rename_i hb
            rw [hg] at hb
            cases hb
  exact fun i hij => main (j - i) i hij rfl

/-- C8 (amended): in a navigation wrapper for spine index `i`, Previous
is disabled exactly when `i` is at or before the resolved index of the
first linear spine item and otherwise links to the nearest linear item
found scanning backward from `i - 1`; Next is symmetric with the last
linear item; consequently, whenever those two indices are distinct (at
least two linear spine items), the first linear item's wrapper has
exactly one disabled control (Previous) and the last linear item's
wrapper exactly one (Next).  With a single linear spine item both
controls of its wrapper are disabled. -/
theorem c8_navigation_boundary (info : EpubInfo) (fIdx lIdx : Nat)
    (fItem lItem : EpubSpineItem)
    (hF : info.spine_items.findIdx?
      (fun item => item.path == info.first_linear_spine_item_path) =
        some fIdx)
    (hL : info.spine_items.findIdx?
      (fun item => item.path == info.last_linear_spine_item_path) =
        some lIdx)
    (hFitem : info.spine_items.get? fIdx = some fItem)
    (hFlin : fItem.linear = true)
    (hLitem : info.spine_items.get? lIdx = some lItem)
    (hLlin : lItem.linear = true)
    (hfl : fIdx < lIdx) :
    (∃ p, create_navigation_wrapper_controls info fIdx =
      .ok (.disabled, .linkTo p)) ∧
    (∃ q, create_navigation_wrapper_controls info lIdx =
      .ok (.linkTo q, .disabled)) ∧
    (∀ i pr nx, create_navigation_wrapper_controls info i = .ok (pr, nx) →
      ((pr = NavControl.disabled ↔ i ≤ fIdx) ∧
        (nx = NavControl.disabled ↔ lIdx ≤ i))) := by
  have hlen : lIdx < info.spine_items.length := by
    cases hcase : info.spine_items.get? lIdx with
    | none => rw [hcase] at hLitem; cases hLitem
    | some it => exact (List.get?_eq_some.mp hcase).1
  refine ⟨?_, ?_, ?_⟩
  · obtain ⟨p, hp⟩ := next_linear_scan_ok info lIdx lItem hLitem hLlin
      (fIdx + 1) (by omega)
    refine ⟨p, ?_⟩
    simp [create_navigation_wrapper_controls, hF, hL, Nat.le_refl,
      except_bind_ok, except_bind_error, except_map_ok, except_map_error,
      except_pure_eq_ok,
      Nat.not_le.mpr hfl, get_next_linear_spine_item_path, hp]
  · obtain ⟨q, hq⟩ := prev_linear_scan_ok info fIdx fItem hFitem hFlin
      (lIdx - 1) (by omega) (by omega)
    refine ⟨q, ?_⟩
    simp [create_navigation_wrapper_controls, hF, hL, Nat.le_refl,
      except_bind_ok, except_bind_error, except_map_ok, except_map_error,
      except_pure_eq_ok,
      Nat.not_le.mpr hfl, get_previous_linear_spine_item_path, hq]
  · intro i pr nx h
    simp only [create_navigation_wrapper_controls, hF, hL] at h
    by_cases hip : i ≤ fIdx
    · have hin : ¬ lIdx ≤ i := by omega
      cases hscan : get_next_linear_spine_item_path info i with
      | error e =>
        simp [hip, hin, hscan, except_bind_ok, except_bind_error,
          except_map_ok, except_map_error, except_pure_eq_ok] at h
      | ok p2 =>
        simp [hip, hin, hscan, except_bind_ok, except_bind_error,
          except_map_ok, except_map_error, except_pure_eq_ok] at h
        obtain ⟨h1, h2⟩ := h
        rw [← h1, ← h2]
        exact ⟨iff_of_true rfl hip, iff_of_false (by simp) hin⟩
    · cases hscan : get_previous_linear_spine_item_path info i with
      | error e =>
        simp [hip, hscan, except_bind_ok, except_bind_error,
          except_map_ok, except_map_error, except_pure_eq_ok] at h
      | ok p2 =>
        by_cases hin : lIdx ≤ i
        · simp [hip, hin, hscan, except_bind_ok, except_bind_error,
            except_map_ok, except_map_error, except_pure_eq_ok] at h
          obtain ⟨h1, h2⟩ := h
          rw [← h1, ← h2]
          exact ⟨iff_of_false (by simp) hip, iff_of_true rfl hin⟩
        · cases hscan2 : get_next_linear_spine_item_path info i with
          | error e =>
            simp [hip, hin, hscan, hscan2, except_bind_ok,
              except_bind_error, except_map_ok, except_map_error,
              except_pure_eq_ok] at h
          | ok p3 =>
            simp [hip, hin, hscan, hscan2, except_bind_ok,
              except_bind_error, except_map_ok, except_map_error,
              except_pure_eq_ok] at h
            obtain ⟨h1, h2⟩ := h
            rw [← h1, ← h2]
            exact ⟨iff_of_false (by simp) hip, iff_of_false (by simp) hin⟩

/-- C8 counterexample: for a book whose spine has exactly one linear
item, that item is both the first and the last linear spine item, and
its navigation wrapper has BOTH controls disabled — refuting the claim
that the first linear item's wrapper has exactly one disabled control,
never two. -/
theorem c8_single_linear_item_both_disabled :
    book_single_linear.spine_items.findIdx?
      (fun item =>
        item.path == book_single_linear.first_linear_spine_item_path) =
      some 0 ∧
    book_single_linear.spine_items.findIdx?
      (fun item =>
        item.path == book_single_linear.last_linear_spine_item_path) =
      some 0 ∧
    create_navigation_wrapper_controls book_single_linear 0 =
      .ok (.disabled, .disabled) :=
  ⟨rfl, rfl, rfl⟩

/-- C8 witness: for a spine of five linear items, the wrapper of item 0
has Previous disabled and Next enabled, and the wrapper of item 4 the
reverse. -/
theorem c8_navigation_boundary_witness :
    (∃ p, create_navigation_wrapper_controls book_five_linear 0 =
      .ok (.disabled, .linkTo p)) ∧
    (∃ q, create_navigation_wrapper_controls book_five_linear 4 =
      .ok (.linkTo q, .disabled)) := by
  have h := c8_navigation_boundary book_five_linear 0 4
    (spine_item "p0.xhtml") (spine_item "p4.xhtml") rfl rfl rfl rfl rfl rfl
    (by omega)
  exact ⟨h.1, h.2.1⟩

theorem candidate_path_ne (root pad s : String) :
    path_join root (pad ++ "_" ++ s) ≠ path_join root pad := by
  intro h
  have hlen := congrArg String.length h
  have h1 : ("_" : String).length = 1 := rfl
  simp only [path_join, String.length_append, h1] at hlen
  omega

theorem padded_style_hash_congr (sh : Style → Nat) (S1 S2 : Style)
    (h : sh S1 = sh S2) :
    padded_style_hash sh S1 = padded_style_hash sh S2 := by
  simp [padded_style_hash, h]

theorem rendition_candidate_path_one (sh : Style → Nat) (info : EpubInfo)
    (S : Style) :
    rendition_candidate_path sh info S 1 =
      path_join info.path_from_library_root (padded_style_hash sh S) := by
  simp [rendition_candidate_path]

theorem rendition_candidate_path_ge_two (sh : Style → Nat)
    (info : EpubInfo) (S : Style) (n : Nat) (hn : 2 ≤ n) :
    rendition_candidate_path sh info S n =
      path_join info.path_from_library_root
        (padded_style_hash sh S ++ "_" ++ Nat.repr n) := by
  have hne : ¬ (n = 1) := by omega
  simp [rendition_candidate_path, hne]

theorem get_new_of_base_unblocked (sh : Style → Nat) (info : EpubInfo)
    (S : Style)
    (h : rendition_path_blocked info S
      (rendition_candidate_path sh info S 1) = false) :
    info.get_new_rendition_dir_path_from_style sh S =
      rendition_candidate_path sh info S 1 := by
  simp only [EpubInfo.get_new_rendition_dir_path_from_style]
  rw [List.range_succ_eq_map]
  simp only [List.map_cons]
  rw [List.find?_cons_of_pos _ (by simp [h])]

theorem get_new_of_base_blocked (sh : Style → Nat) (info : EpubInfo)
    (S : Style)
    (h : rendition_path_blocked info S
      (rendition_candidate_path sh info S 1) = true) :
    ∃ n, 2 ≤ n ∧ info.get_new_rendition_dir_path_from_style sh S =
      rendition_candidate_path sh info S n := by
  simp only [EpubInfo.get_new_rendition_dir_path_from_style]
  cases hfind : ((List.range (info.nonraw_renditions.length + 1)).map
      (fun k => k + 1)).find?
      (fun n => !(rendition_path_blocked info S
        (rendition_candidate_path sh info S n))) with
  | none => exact ⟨info.nonraw_renditions.length + 2, by omega, rfl⟩
  | some n =>
    have hp := List.find?_some hfind
    have hmem := List.mem_of_find?_eq_some hfind
    have hge1 : 1 ≤ n := by
      simp only [List.mem_map, List.mem_range] at hmem
      obtain ⟨k, _, hk2⟩ := hmem
      omega
    have hne1 : n ≠ 1 := by
      intro h1
      rw [h1] at hp
      rw [h] at hp
      cases hp
    exact ⟨n, by omega, rfl⟩

theorem register_style_ok_shape (env : FsEnv) (sh : Style → Nat)
    (lp : String) (info : EpubInfo) (style : Style) (info2 : EpubInfo)
    (ops : List FsOp)
    (h : register_style env sh lp info style = .ok (info2, ops)) :
    ∃ dfp b, info2 = { info with
      nonraw_renditions := info.nonraw_renditions ++
        [⟨style, info.get_new_rendition_dir_path_from_style sh style,
          dfp, b⟩] } := by
  simp only [register_style] at h
  cases h1 : attempt_op env
      (FsOp.createDir
        (path_join lp (info.get_new_rendition_dir_path_from_style sh style)))
      "Could not create rendition directory for new style." with
  | error e =>
    rw [h1] at h
    cases h
  | ok ops1 =>
    rw [h1] at h
    cases h2 : rendition_artifacts env info style lp
        (info.get_new_rendition_dir_path_from_style sh style)
        (path_join lp (info.get_new_rendition_dir_path_from_style sh style))
        (path_join lp info.raw_rendition.dir_path_from_library_root) with
    | error e =>
      rw [h2] at h
      cases h
    | ok pair =>
      rw [h2] at h
      cases h3 : attempt_op env
          (FsOp.readDirSize
            (path_join lp
              (info.get_new_rendition_dir_path_from_style sh style)))
          "Could not read rendition directory size." with
      | error e =>
        rw [h3] at h
        cases h
      | ok ops3 =>
        rw [h3] at h
        simp only [except_bind_ok, except_pure_eq_ok,
          Except.ok.injEq, Prod.mk.injEq] at h
        exact ⟨pair.1,
          env.dir_size
            (path_join lp (info.get_new_rendition_dir_path_from_style sh style)),
          h.1.symm⟩

theorem get_new_collision (sh : Style → Nat) (info : EpubInfo)
    (S1 S2 : Style) (r : EpubRenditionInfo)
    (hne : S1 ≠ S2) (hhash : sh S1 = sh S2)
    (hmem : r ∈ info.nonraw_renditions) (hstyle : r.style = S1)
    (hdir : r.dir_path_from_library_root =
      rendition_candidate_path sh info S1 1) :
    ∃ n, 2 ≤ n ∧
      info.get_new_rendition_dir_path_from_style sh S2 =
        rendition_candidate_path sh info S2 n ∧
      info.get_new_rendition_dir_path_from_style sh S2 ≠
        r.dir_path_from_library_root := by
  have hpad := padded_style_hash_congr sh S1 S2 hhash
  have hc11 : rendition_candidate_path sh info S2 1 =
      rendition_candidate_path sh info S1 1 := by
    rw [rendition_candidate_path_one, rendition_candidate_path_one, hpad]
  have hbl : rendition_path_blocked info S2
      (rendition_candidate_path sh info S2 1) = true := by
    simp only [rendition_path_blocked, List.any_eq_true]
    refine ⟨r, hmem, ?_⟩
    simp only [hc11, hdir, hstyle, Bool.and_eq_true, beq_iff_eq,
      Bool.not_eq_true', beq_eq_false_iff_ne]
    exact ⟨by trivial, fun hx => hne hx.symm⟩
  obtain ⟨n, hn2, hres⟩ := get_new_of_base_blocked sh info S2 hbl
  refine ⟨n, hn2, hres, ?_⟩
  rw [hres, hdir, rendition_candidate_path_ge_two sh info S2 n hn2,
    rendition_candidate_path_one, ← hpad]
  exact candidate_path_ne _ _ _

/-- C3: directory paths for renditions are stable yet collision-safe.
When every existing rendition at the fingerprint-derived base name
belongs to the style itself, the derivation returns that stable base
name; when a rendition of a different style with an equal fingerprint
already occupies the base name, the derivation returns a
numerically-suffixed candidate (the suffix index is at least 2) distinct
from the occupied path; and registering two distinct but
fingerprint-colliding styles on the same fresh book yields two rendition
records with different directory paths. -/
theorem c3_fingerprint_collision_safety :
    (∀ (sh : Style → Nat) (info : EpubInfo) (S : Style),
      (∀ r ∈ info.nonraw_renditions,
        r.dir_path_from_library_root =
          rendition_candidate_path sh info S 1 → r.style = S) →
      info.get_new_rendition_dir_path_from_style sh S =
        rendition_candidate_path sh info S 1) ∧
    (∀ (sh : Style → Nat) (info : EpubInfo) (S1 S2 : Style)
      (r : EpubRenditionInfo),
      S1 ≠ S2 → sh S1 = sh S2 → r ∈ info.nonraw_renditions →
      r.style = S1 →
      r.dir_path_from_library_root =
        rendition_candidate_path sh info S1 1 →
      ∃ n, 2 ≤ n ∧
        info.get_new_rendition_dir_path_from_style sh S2 =
          rendition_candidate_path sh info S2 n ∧
        info.get_new_rendition_dir_path_from_style sh S2 ≠
          r.dir_path_from_library_root) ∧
    (∀ (env : FsEnv) (sh : Style → Nat) (lib : Library) (id : String)
      (info : EpubInfo) (S1 S2 : Style) (lib2 : Library) (ops : List FsOp),
      lib.get_book id = some info → info.nonraw_renditions = [] →
      S1 ≠ Style.raw → S2 ≠ Style.raw → S1 ≠ S2 → sh S1 = sh S2 →
      lib.register_book_styles env sh id [S1, S2] = (lib2, ops, none) →
      ∃ info2 r1 r2, lib2.get_book id = some info2 ∧
        info2.nonraw_renditions = [r1, r2] ∧ r1.style = S1 ∧
        r2.style = S2 ∧
        r1.dir_path_from_library_root ≠ r2.dir_path_from_library_root) := by
  refine ⟨?_, ?_, ?_⟩
  · intro sh info S hstab
    apply get_new_of_base_unblocked
    cases hbl : rendition_path_blocked info S
        (rendition_candidate_path sh info S 1) with
    | false => rfl
    | true =>
      exfalso
      simp only [rendition_path_blocked, List.any_eq_true] at hbl
      obtain ⟨r, hmem, hcond⟩ := hbl
      simp only [Bool.and_eq_true, beq_iff_eq, Bool.not_eq_true',
        beq_eq_false_iff_ne] at hcond
      exact hcond.2 (hstab r hmem hcond.1).symm
  · intro sh info S1 S2 r hne hhash hmem hstyle hdir
    exact get_new_collision sh info S1 S2 r hne hhash hmem hstyle hdir
  · intro env sh lib id info S1 S2 lib2 ops hb hnn hS1 hS2 hne hhash hreg
    have hfind : (lib.books.find? (fun b => b.1 == id)).isSome = true := by
      simp only [Library.get_book] at hb
      cases hf : lib.books.find? (fun b => b.1 == id) with
      | none => rw [hf] at hb; simp at hb
      | some p => simp
    have hfr1 : info.find_rendition S1 = none := by
      simp [EpubInfo.find_rendition, hS1, hnn]
    simp only [Library.register_book_styles, hb] at hreg
    simp only [register_loop, hfr1, Option.isSome_none,
      Bool.false_eq_true, if_false] at hreg
    cases hr1 : register_style env sh lib.library_path info S1 with
    | error m =>
      rw [hr1] at hreg
      have h3 := congrArg (fun p => p.2.2) hreg
      simp at h3
    | ok pr1 =>
      rw [hr1] at hreg
      obtain ⟨dfp1, b1, hshape1⟩ := register_style_ok_shape env sh
        lib.library_path info S1 pr1.1 pr1.2 (by rw [hr1])
      have hpath : pr1.1.path_from_library_root =
          info.path_from_library_root := by rw [hshape1]
      have hfr2 : pr1.1.find_rendition S2 = none := by
        rw [hshape1]
        simp only [EpubInfo.find_rendition, hS2, if_neg hS2, hnn]
        simp only [List.nil_append, List.find?]
        have : (S2 == S1) = false := by
          simp only [beq_eq_false_iff_ne]
          exact fun hx => hne hx.symm
        simp [this]
      simp only [register_loop, hfr2, Option.isSome_none,
        Bool.false_eq_true, if_false] at hreg
      cases hr2 : register_style env sh lib.library_path pr1.1 S2 with
      | error m =>
        rw [hr2] at hreg
        have h3 := congrArg (fun p => p.2.2) hreg
        simp at h3
      | ok pr2 =>
        rw [hr2] at hreg
        obtain ⟨dfp2, b2, hshape2⟩ := register_style_ok_shape env sh
          lib.library_path pr1.1 S2 pr2.1 pr2.2 (by rw [hr2])
        simp only [register_loop] at hreg
        rw [if_pos trivial] at hreg
        have hlib2 := congrArg (fun p => p.1) hreg
        simp only at hlib2
        have hd1 : info.get_new_rendition_dir_path_from_style sh S1 =
            rendition_candidate_path sh info S1 1 := by
          apply get_new_of_base_unblocked
          simp [rendition_path_blocked, hnn]
        have hr1mem : (⟨S1,
            info.get_new_rendition_dir_path_from_style sh S1, dfp1, b1⟩ :
            EpubRenditionInfo) ∈ pr1.1.nonraw_renditions := by
          rw [hshape1]
          simp
        have hr1dir : (⟨S1,
            info.get_new_rendition_dir_path_from_style sh S1, dfp1, b1⟩ :
            EpubRenditionInfo).dir_path_from_library_root =
            rendition_candidate_path sh pr1.1 S1 1 := by
          simp only [hd1]
          rw [rendition_candidate_path_one, rendition_candidate_path_one,
            hpath]
        obtain ⟨n, hn2, hres, hneq⟩ := get_new_collision sh pr1.1 S1 S2
          (⟨S1, info.get_new_rendition_dir_path_from_style sh S1, dfp1, b1⟩)
          hne hhash hr1mem rfl hr1dir
        refine ⟨pr2.1,
          ⟨S1, info.get_new_rendition_dir_path_from_style sh S1, dfp1, b1⟩,
          ⟨S2, pr1.1.get_new_rendition_dir_path_from_style sh S2, dfp2, b2⟩,
          ?_, ?_, rfl, rfl, ?_⟩
        · rw [← hlib2]
          simp only [Library.get_book,
            find_replace_first_self lib.books id _ hfind]
          rfl
        · rw [hshape2, hshape1]
          simp [hnn]
        · exact fun hx => hneq hx.symm

/-- C3 witness: registering the distinct styles `style_red` and
`style_blue`, which collide under the degenerate fingerprint mapping
every style to 0, on a fresh one-book library yields two rendition
records whose directory paths differ. -/
theorem c3_fingerprint_collision_safety_witness :
    ∃ info2 r1 r2,
      ((test_library.register_book_styles env_all_ok zero_style_hash "book1"
          [style_red, style_blue]).1).get_book "book1" = some info2 ∧
      info2.nonraw_renditions = [r1, r2] ∧ r1.style = style_red ∧
      r2.style = style_blue ∧
      r1.dir_path_from_library_root ≠ r2.dir_path_from_library_root :=
  c3_fingerprint_collision_safety.2.2 env_all_ok zero_style_hash
    test_library "book1" (mk_test_book "book1" 1 7) style_red style_blue
    _ _ rfl rfl (by decide) (by decide) (by decide) rfl rfl

end Rib
